import Mathlib

/-!
# gluster-exporter: the collection pipeline

A shallow embedding of `internal/gluster/client.go` and of `Metrics.Collect`
(`internal/metrics/metrics.go`).

Conventions of the embedding.

* A Go `string` is a Lean `String` (the valid UTF-8 strings); `len` is the length in bytes.
* A Go `error` is an `Option String`, `none` being `nil`. A Go function returning
  `(T, error)` returns the pair: Go hands back a value next to a non-nil error too.
* A Go `int` is a Lean `Int`; where the source does arithmetic on it the result is wrapped
  to 64 bits (`wrapInt`).
* `float64(x)` of an integer `x` is kept symbolically as `Value.ofInt x`; a `float64` read
  from decoded XML is carried as its bit pattern (`Value.ofBits`).
* The outside world (the gluster binary, `xml.Unmarshal` at each record type, the `mount`
  command, the file system, the viper switches) is a `World`, a record of functions: within
  one scrape the result of an external call is a function of its arguments.
* Sending on the channel `ch` appends to the list of emitted observations; a run-time panic
  (index out of range) stops the run and is recorded in `Outcome.panicked`.
* The record types of `package gluster` are declared in a file that is not part of the
  sources at hand; they are declared here with the fields that `client.go` and `metrics.go`
  read.
-/

namespace GlusterExporter

/-! ## Go library functions -/

/-- Go `error`; `none` is `nil`. -/
abbrev GoError := Option String

/-- The predicate `unicode.IsSpace`. -/
def isSpace (c : Char) : Bool :=
  c.toNat == 0x09 || c.toNat == 0x0A || c.toNat == 0x0B || c.toNat == 0x0C ||
  c.toNat == 0x0D || c.toNat == 0x20 || c.toNat == 0x85 || c.toNat == 0xA0 ||
  c.toNat == 0x1680 || (0x2000 ≤ c.toNat && c.toNat ≤ 0x200A) || c.toNat == 0x2028 ||
  c.toNat == 0x2029 || c.toNat == 0x202F || c.toNat == 0x205F || c.toNat == 0x3000

/-- The function `strings.TrimSpace`: leading and trailing white space removed. -/
def TrimSpace (s : String) : String :=
  ⟨(s.data.dropWhile isSpace).rdropWhile isSpace⟩

/-- The function `strings.Split` for a separator of one ASCII character (the sources split
on a newline, a blank and a comma). -/
def Split (s : String) (sep : Char) : List String :=
  (s.data.splitOn sep).map String.mk

/-- The function `strings.HasPrefix`. -/
def HasPrefix (s pre : String) : Bool :=
  pre.data.isPrefixOf s.data

/-- Go `len` of a string: the number of bytes. -/
def len (s : String) : Nat :=
  s.utf8ByteSize

/-- Smallest value of a 64-bit Go `int`. -/
def minInt : Int := -9223372036854775808

/-- Largest value of a 64-bit Go `int`. -/
def maxInt : Int := 9223372036854775807

/-- Two's complement wrap-around of a 64-bit Go `int`. -/
def wrapInt (x : Int) : Int :=
  (x + 9223372036854775808) % 18446744073709551616 - 9223372036854775808

/-- Value of a decimal digit, `none` for any other character. -/
def digitVal (c : Char) : Option Nat :=
  if 48 ≤ c.toNat ∧ c.toNat ≤ 57 then some (c.toNat - 48) else none

/-- Reads a run of decimal digits, most significant first. -/
def parseDigits : List Char → Nat → Option Nat
  | [], acc => some acc
  | c :: cs, acc =>
    match digitVal c with
    | none => none
    | some d => parseDigits cs (acc * 10 + d)

/-- The function `strconv.Atoi`: an optional sign followed by one or more decimal digits,
the value in the range of `int`; otherwise an error (and 0, or the nearest bound on a range
error). -/
def Atoi (s : String) : Int × GoError :=
  let body : List Char :=
    match s.data with
    | '-' :: r => r
    | '+' :: r => r
    | r => r
  if body = [] then (0, some "strconv.Atoi: invalid text")
  else
    match parseDigits body 0 with
    | none => (0, some "strconv.Atoi: invalid text")
    | some n =>
      let v : Int := if s.data.head? = some '-' then -(n : Int) else (n : Int)
      if v < minInt then (minInt, some "strconv.Atoi: value out of range")
      else if maxInt < v then (maxInt, some "strconv.Atoi: value out of range")
      else (v, none)

/-! ## Records of `package gluster` -/

/-- One volume of `gluster volume info`. -/
structure Volume where
  Name : String
  Status : Int
  BrickCount : Int
deriving DecidableEq, Repr

/-- The volume catalogue of `gluster volume info`. -/
structure Volumes where
  Count : Int
  Volume : List Volume
deriving DecidableEq, Repr

/-- Envelope of the volume catalogue. -/
structure VolInfo where
  Volumes : Volumes
deriving DecidableEq, Repr

/-- Decoded output of `gluster volume info`. -/
structure VolumeInfoXML where
  OpErrno : Int
  VolInfo : VolInfo
deriving DecidableEq, Repr

/-- The Go zero value `VolumeInfoXML{}`. -/
def VolumeInfoXML.zero : VolumeInfoXML := ⟨0, ⟨⟨0, []⟩⟩⟩

/-- Decoded volume list of `gluster volume list`. -/
structure VolList where
  Volume : List String
deriving DecidableEq, Repr

/-- The Go zero value `VolList{}`. -/
def VolList.zero : VolList := ⟨[]⟩

/-- Decoded output of `gluster volume list`. -/
structure VolumeListXML where
  VolList : VolList
deriving DecidableEq, Repr

/-- One peer of `gluster peer status`; its fields are not read by the sources. -/
structure Peer where
  Hostname : String
deriving DecidableEq, Repr

/-- The peer list of `gluster peer status`. -/
structure PeerStatus where
  Peer : List Peer
deriving DecidableEq, Repr

/-- The Go zero value `PeerStatus{}`. -/
def PeerStatus.zero : PeerStatus := ⟨[]⟩

/-- Decoded output of `gluster peer status`. -/
structure PeerStatusXML where
  PeerStatus : PeerStatus
deriving DecidableEq, Repr

/-- Statistics of one file operation; the latencies are `float64` bit patterns. -/
structure Fop where
  Name : String
  Hits : Int
  AvgLatency : Nat
  MinLatency : Nat
  MaxLatency : Nat
deriving DecidableEq, Repr

/-- The file operations of one brick. -/
structure FopStats where
  Fop : List Fop
deriving DecidableEq, Repr

/-- Cumulative statistics of one brick. -/
structure CumulativeStats where
  Duration : Int
  TotalRead : Int
  TotalWrite : Int
  FopStats : FopStats
deriving DecidableEq, Repr

/-- One brick of a volume profile. -/
structure Brick where
  BrickName : String
  CumulativeStats : CumulativeStats
deriving DecidableEq, Repr

/-- Decoded profile of one volume. -/
structure VolProfile where
  Brick : List Brick
deriving DecidableEq, Repr

/-- The Go zero value `VolProfile{}`. -/
def VolProfile.zero : VolProfile := ⟨[]⟩

/-- Decoded output of `gluster volume profile NAME info cumulative`. -/
structure VolumeProfileXML where
  VolProfile : VolProfile
deriving DecidableEq, Repr

/-- One node of `gluster volume status all detail`. -/
structure Node where
  Hostname : String
  Path : String
  SizeTotal : Int
  SizeFree : Int
  InodesTotal : Int
  InodesFree : Int
deriving DecidableEq, Repr

/-- One volume of `gluster volume status all detail`. -/
structure StatusVolume where
  VolName : String
  Node : List Node
deriving DecidableEq, Repr

/-- The volumes of `gluster volume status all detail`. -/
structure StatusVolumes where
  Volume : List StatusVolume
deriving DecidableEq, Repr

/-- Envelope of the volume status. -/
structure VolStatus where
  Volumes : StatusVolumes
deriving DecidableEq, Repr

/-- Decoded output of `gluster volume status all detail`. -/
structure VolumeStatusXML where
  VolStatus : VolStatus
deriving DecidableEq, Repr

/-- The Go zero value `VolumeStatusXML{}`. -/
def VolumeStatusXML.zero : VolumeStatusXML := ⟨⟨⟨[]⟩⟩⟩

/-- One brick of `gluster volume heal NAME info`. -/
structure HealBrick where
  NumberOfEntries : String
deriving DecidableEq, Repr

/-- The bricks of `gluster volume heal NAME info`. -/
structure HealBricks where
  Brick : List HealBrick
deriving DecidableEq, Repr

/-- Envelope of the heal information. -/
structure HealInfo where
  Bricks : HealBricks
deriving DecidableEq, Repr

/-- Decoded output of `gluster volume heal NAME info`. -/
structure VolumeHealInfoXML where
  HealInfo : HealInfo
deriving DecidableEq, Repr

/-- One limit of `gluster volume quota NAME list`. -/
structure QuotaLimit where
  Path : String
  HardLimit : Int
  SoftLimitValue : Int
  UsedSpace : Int
  AvailSpace : Int
  SlExceeded : String
  HlExceeded : String
deriving DecidableEq, Repr

/-- The limits of `gluster volume quota NAME list`. -/
structure VolQuota where
  QuotaLimits : List QuotaLimit
deriving DecidableEq, Repr

/-- Decoded output of `gluster volume quota NAME list`. -/
structure VolumeQuotaXML where
  VolQuota : VolQuota
deriving DecidableEq, Repr

/-- The Go zero value `VolumeQuotaXML{}`. -/
def VolumeQuotaXML.zero : VolumeQuotaXML := ⟨⟨[]⟩⟩

/-- A local mount: `client.go`, `type Mount`. -/
structure Mount where
  MountPoint : String
  Volume : String
deriving DecidableEq, Repr

/-! ## The outside world -/

/-- Everything a scrape reads from outside the program. -/
structure World where
  /-- Runs the configured gluster binary on an argument vector: its standard output and the
  error of `Run`. -/
  run : List String → String × GoError
  /-- The function `xml.Unmarshal` into a zero `VolumeInfoXML`. -/
  unmarshalVolumeInfo : String → VolumeInfoXML × GoError
  /-- The function `xml.Unmarshal` into a zero `VolumeListXML`. -/
  unmarshalVolumeList : String → VolumeListXML × GoError
  /-- The function `xml.Unmarshal` into a zero `PeerStatusXML`. -/
  unmarshalPeerStatus : String → PeerStatusXML × GoError
  /-- The function `xml.Unmarshal` into a zero `VolumeProfileXML`. -/
  unmarshalVolumeProfile : String → VolumeProfileXML × GoError
  /-- The function `xml.Unmarshal` into a zero `VolumeStatusXML`. -/
  unmarshalVolumeStatus : String → VolumeStatusXML × GoError
  /-- The function `xml.Unmarshal` into a zero `VolumeHealInfoXML`. -/
  unmarshalVolumeHealInfo : String → VolumeHealInfoXML × GoError
  /-- The function `xml.Unmarshal` into a zero `VolumeQuotaXML`. -/
  unmarshalVolumeQuota : String → VolumeQuotaXML × GoError
  /-- Standard output and error of `mount -t fuse.glusterfs`. -/
  mount : String × GoError
  /-- The text of `time.Now()` as `fmt.Sprintf` prints it. -/
  now : String
  /-- The error of `os.Create` on a path. -/
  create : String → GoError
  /-- The error of `os.Remove` on a path. -/
  remove : String → GoError
  /-- The switch `viper.GetBool("profile")`. -/
  profile : Bool
  /-- The switch `viper.GetBool("quota")`. -/
  quota : Bool

/-! ## `internal/gluster/client.go` -/

/-- `execGlusterCommand` (client.go 16-28): the arguments with `--xml` appended. -/
def execGlusterCommand (w : World) (arg : List String) : String × GoError :=
  w.run (arg ++ ["--xml"])

/-- `GetMountCheck` (client.go 30-37). -/
def GetMountCheck (w : World) : String × GoError :=
  w.mount

/-- The loop of `ParseMountOutput` (client.go 48-54); `none` is the index-out-of-range
panic of `mountColumns[2]` or `mountColumns[0]`. -/
def parseMountRows : List String → List Mount → Option (List Mount)
  | [], mounts => some mounts
  | row :: rows, mounts =>
    let trimmedRow := TrimSpace row
    if len row > 3 then
      let mountColumns := Split trimmedRow ' '
      match mountColumns[2]?, mountColumns[0]? with
      | some mountPoint, some volume =>
        parseMountRows rows (mounts ++ [{ MountPoint := mountPoint, Volume := volume }])
      | _, _ => none
    else parseMountRows rows mounts

/-- `ParseMountOutput` (client.go 45-56); `none` is a panic. -/
def ParseMountOutput (mountBuffer : String) : Option (List Mount × GoError) :=
  match parseMountRows (Split mountBuffer '\n') [] with
  | some mounts => some (mounts, none)
  | none => none

/-- `ExecTouchOnVolumes` (client.go 58-69). -/
def ExecTouchOnVolumes (w : World) (mountpoint : String) : Bool × GoError :=
  let testFileName := mountpoint ++ "/" ++ "gluster_mount.test" ++ "_" ++ w.now
  match w.create testFileName with
  | some createErr => (false, some createErr)
  | none =>
    match w.remove testFileName with
    | some removeErr => (false, some removeErr)
    | none => (true, none)

/-- `GetVolumeInfo` (client.go 73-86). -/
def GetVolumeInfo (w : World) : VolumeInfoXML × GoError :=
  match execGlusterCommand w ["volume", "info"] with
  | (_, some cmdErr) => (VolumeInfoXML.zero, some cmdErr)
  | (bytesBuffer, none) =>
    match w.unmarshalVolumeInfo bytesBuffer with
    | (volumeInfo, some err) => (volumeInfo, some err)
    | (volumeInfo, none) => (volumeInfo, none)

/-- `GetVolumeList` (client.go 90-103). -/
def GetVolumeList (w : World) : VolList × GoError :=
  match execGlusterCommand w ["volume", "list"] with
  | (_, some cmdErr) => (VolList.zero, some cmdErr)
  | (bytesBuffer, none) =>
    match w.unmarshalVolumeList bytesBuffer with
    | (volumeList, some err) => (volumeList.VolList, some err)
    | (volumeList, none) => (volumeList.VolList, none)

/-- `GetPeerStatus` (client.go 107-120). -/
def GetPeerStatus (w : World) : PeerStatus × GoError :=
  match execGlusterCommand w ["peer", "status"] with
  | (_, some cmdErr) => (PeerStatus.zero, some cmdErr)
  | (bytesBuffer, none) =>
    match w.unmarshalPeerStatus bytesBuffer with
    | (peerStatus, some err) => (peerStatus.PeerStatus, some err)
    | (peerStatus, none) => (peerStatus.PeerStatus, none)

/-- `GetVolumeProfileGvInfoCumulative` (client.go 124-136). -/
def GetVolumeProfileGvInfoCumulative (w : World) (volumeName : String) :
    VolProfile × GoError :=
  match execGlusterCommand w ["volume", "profile", volumeName, "info", "cumulative"] with
  | (_, some cmdErr) => (VolProfile.zero, some cmdErr)
  | (bytesBuffer, none) =>
    match w.unmarshalVolumeProfile bytesBuffer with
    | (volumeProfile, some err) => (volumeProfile.VolProfile, some err)
    | (volumeProfile, none) => (volumeProfile.VolProfile, none)

/-- `GetVolumeStatusAllDetail` (client.go 140-152). -/
def GetVolumeStatusAllDetail (w : World) : VolumeStatusXML × GoError :=
  match execGlusterCommand w ["volume", "status", "all", "detail"] with
  | (_, some cmdErr) => (VolumeStatusXML.zero, some cmdErr)
  | (bytesBuffer, none) =>
    match w.unmarshalVolumeStatus bytesBuffer with
    | (volumeStatus, some err) => (volumeStatus, some err)
    | (volumeStatus, none) => (volumeStatus, none)

/-- The loop of `GetVolumeHealInfo` (client.go 169-179) from a given running total. -/
def healLoop : List HealBrick → Int → Int × GoError
  | [], entriesOutOfSync => (entriesOutOfSync, none)
  | brick :: bricks, entriesOutOfSync =>
    match Atoi brick.NumberOfEntries with
    | (_, some err) => (-1, some err)
    | (count, none) => healLoop bricks (wrapInt (entriesOutOfSync + count))

/-- `GetVolumeHealInfo` (client.go 156-180). -/
def GetVolumeHealInfo (w : World) (volumeName : String) : Int × GoError :=
  match execGlusterCommand w ["volume", "heal", volumeName, "info"] with
  | (_, some cmdErr) => (-1, some cmdErr)
  | (bytesBuffer, none) =>
    match w.unmarshalVolumeHealInfo bytesBuffer with
    | (_, some err) => (-1, some err)
    | (healInfo, none) => healLoop healInfo.HealInfo.Bricks.Brick 0

/-- `GetVolumeQuotaList` (client.go 184-196). -/
def GetVolumeQuotaList (w : World) (volumeName : String) : VolumeQuotaXML × GoError :=
  match execGlusterCommand w ["volume", "quota", volumeName, "list"] with
  | (_, some cmdErr) => (VolumeQuotaXML.zero, some cmdErr)
  | (bytesBuffer, none) =>
    match w.unmarshalVolumeQuota bytesBuffer with
    | (volumeQuota, some err) => (volumeQuota, some err)
    | (volumeQuota, none) => (volumeQuota, none)

/-! ## `internal/metrics/metrics.go` -/

/-- The metric descriptors of `Metrics` (metrics.go 24-48). -/
inductive Desc where
  | up
  | volumesCount
  | volumeStatus
  | nodeSizeFreeBytes
  | nodeSizeTotalBytes
  | nodeInodesTotal
  | nodeInodesFree
  | brickCount
  | brickDuration
  | brickDataRead
  | brickDataWritten
  | brickFopHits
  | brickFopLatencyAvg
  | brickFopLatencyMin
  | brickFopLatencyMax
  | peersConnected
  | healInfoFilesCount
  | volumeWriteable
  | mountSuccessful
  | quotaHardLimit
  | quotaSoftLimit
  | quotaUsed
  | quotaAvailable
  | quotaSoftLimitExceeded
  | quotaHardLimitExceeded
deriving DecidableEq, Repr

/-- The fully qualified metric name of a descriptor (metrics.go 67-206). -/
def Desc.fqName : Desc → String
  | .up => "gluster_up"
  | .volumesCount => "gluster_volumes_available"
  | .volumeStatus => "gluster_volume_status"
  | .nodeSizeFreeBytes => "gluster_node_size_free_bytes"
  | .nodeSizeTotalBytes => "gluster_node_size_bytes_total"
  | .nodeInodesTotal => "gluster_node_inodes_total"
  | .nodeInodesFree => "gluster_node_inodes_free"
  | .brickCount => "gluster_brick_available"
  | .brickDuration => "gluster_brick_duration_seconds_total"
  | .brickDataRead => "gluster_brick_data_read_bytes_total"
  | .brickDataWritten => "gluster_brick_data_written_bytes_total"
  | .brickFopHits => "gluster_brick_fop_hits_total"
  | .brickFopLatencyAvg => "gluster_brick_fop_latency_avg"
  | .brickFopLatencyMin => "gluster_brick_fop_latency_min"
  | .brickFopLatencyMax => "gluster_brick_fop_latency_max"
  | .peersConnected => "gluster_peers_connected"
  | .healInfoFilesCount => "gluster_heal_info_files_count"
  | .volumeWriteable => "gluster_volume_writeable"
  | .mountSuccessful => "gluster_mount_successful"
  | .quotaHardLimit => "gluster_volume_quota_hardlimit"
  | .quotaSoftLimit => "gluster_volume_quota_softlimit"
  | .quotaUsed => "gluster_volume_quota_used"
  | .quotaAvailable => "gluster_volume_quota_available"
  | .quotaSoftLimitExceeded => "gluster_volume_quota_softlimit_exceeded"
  | .quotaHardLimitExceeded => "gluster_volume_quota_hardlimit_exceeded"

/-- The value type of a constant metric: `prometheus.GaugeValue`, `prometheus.CounterValue`. -/
inductive ValueType where
  | GaugeValue
  | CounterValue
deriving DecidableEq, Repr

/-- A `float64` metric value: the conversion `float64(i)` of an integer, or a `float64`
passed through from a decoded record (its bit pattern). -/
inductive Value where
  | ofInt (i : Int)
  | ofBits (bits : Nat)
deriving DecidableEq, Repr

/-- One observation sent on the channel: the result of `prometheus.MustNewConstMetric`. -/
structure Observation where
  desc : Desc
  valueType : ValueType
  value : Value
  labelValues : List String
deriving DecidableEq, Repr

/-- `prometheus.MustNewConstMetric`; every call of `Collect` passes as many label values as
its descriptor declares. -/
def MustNewConstMetric (desc : Desc) (valueType : ValueType) (value : Value)
    (labelValues : List String) : Observation :=
  { desc := desc, valueType := valueType, value := value, labelValues := labelValues }

/-- What a run has sent on the channel, and whether it ended in a panic. -/
structure Outcome where
  emitted : List Observation
  panicked : Bool
deriving DecidableEq, Repr

/-- A run that sends the given observations and completes. -/
def Outcome.ok (obs : List Observation) : Outcome := ⟨obs, false⟩

/-- A run that panics before sending anything. -/
def Outcome.panic : Outcome := ⟨[], true⟩

/-- Sequential composition: the second run happens only if the first did not panic. -/
def Outcome.seq (a b : Outcome) : Outcome :=
  if a.panicked then a else ⟨a.emitted ++ b.emitted, b.panicked⟩

/-- A `for ... range` loop whose body is a run. -/
def forEach {α : Type} (xs : List α) (body : α → Outcome) : Outcome :=
  xs.foldr (fun x rest => (body x).seq rest) (Outcome.ok [])

/-- The constant `allVolumes` (metrics.go 17). -/
def allVolumes : String := "_all"

/-- The fields of `Metrics` that `Collect` reads (metrics.go 20-22). -/
structure Metrics where
  hostname : String
  volumes : List String
deriving DecidableEq, Repr

/-- What `New` reads from its environment. -/
structure Config where
  /-- The result of `os.Hostname()`. -/
  hostname : String × GoError
  /-- The result of `utils.FileExists(viper.GetString("gluster_binary"))`. -/
  binaryExists : Bool
  /-- The value of `viper.GetString("gluster_volumes")`. -/
  glusterVolumes : String

/-- `New` (metrics.go 51-238). -/
def New (cfg : Config) : Except String Metrics :=
  match cfg.hostname with
  | (_, some err) => .error err
  | (hostname, none) =>
    if !cfg.binaryExists then .error "gluster binary not found"
    else
      let volumes := Split cfg.glusterVolumes ','
      if volumes.length < 1 then .error "no gluster volumes provided"
      else .ok { hostname := hostname, volumes := volumes }

/-- The scope test `m.volumes[0] == allVolumes || slices.Contains(m.volumes, name)`
(metrics.go 293, 321, 442); `none` is the index-out-of-range panic of `m.volumes[0]`. -/
def inScope (m : Metrics) (name : String) : Option Bool :=
  match m.volumes with
  | [] => none
  | first :: _ => some (first == allVolumes || m.volumes.contains name)

/-- The liveness gauge and the volume count (metrics.go 268-290). -/
def collectUp (volumeInfo : VolumeInfoXML) (err : GoError) : Outcome :=
  Outcome.ok
    ((match err with
      | some _ => [MustNewConstMetric .up .GaugeValue (.ofInt 0) []]
      | none => []) ++
     (if volumeInfo.OpErrno != 0 then [MustNewConstMetric .up .GaugeValue (.ofInt 0) []]
      else [MustNewConstMetric .up .GaugeValue (.ofInt 1) []]) ++
     [MustNewConstMetric .volumesCount .GaugeValue (.ofInt volumeInfo.VolInfo.Volumes.Count) []])

/-- The per-volume gauges (metrics.go 292-303). -/
def collectVolumes (m : Metrics) (volumeInfo : VolumeInfoXML) : Outcome :=
  forEach volumeInfo.VolInfo.Volumes.Volume fun volume =>
    match inScope m volume.Name with
    | none => Outcome.panic
    | some true =>
      Outcome.ok
        [MustNewConstMetric .brickCount .GaugeValue (.ofInt volume.BrickCount) [volume.Name],
         MustNewConstMetric .volumeStatus .GaugeValue (.ofInt volume.Status) [volume.Name]]
    | some false => Outcome.ok []

/-- The peer count (metrics.go 305-316). -/
def collectPeers (w : World) : Outcome :=
  Outcome.ok
    [MustNewConstMetric .peersConnected .GaugeValue
      (.ofInt ((GetPeerStatus w).1.Peer.length : Int)) []]

/-- The observations of one file operation (metrics.go 340-354). -/
def fopObservations (volumeName brickName : String) (fop : Fop) : List Observation :=
  [MustNewConstMetric .brickFopHits .CounterValue (.ofInt fop.Hits)
     [volumeName, brickName, fop.Name],
   MustNewConstMetric .brickFopLatencyAvg .GaugeValue (.ofBits fop.AvgLatency)
     [volumeName, brickName, fop.Name],
   MustNewConstMetric .brickFopLatencyMin .GaugeValue (.ofBits fop.MinLatency)
     [volumeName, brickName, fop.Name],
   MustNewConstMetric .brickFopLatencyMax .GaugeValue (.ofBits fop.MaxLatency)
     [volumeName, brickName, fop.Name]]

/-- The observations of one brick of a profile (metrics.go 327-356). -/
def brickObservations (m : Metrics) (volumeName : String) (brick : Brick) :
    List Observation :=
  if HasPrefix brick.BrickName m.hostname then
    [MustNewConstMetric .brickDuration .CounterValue (.ofInt brick.CumulativeStats.Duration)
       [volumeName, brick.BrickName],
     MustNewConstMetric .brickDataRead .CounterValue (.ofInt brick.CumulativeStats.TotalRead)
       [volumeName, brick.BrickName],
     MustNewConstMetric .brickDataWritten .CounterValue (.ofInt brick.CumulativeStats.TotalWrite)
       [volumeName, brick.BrickName]] ++
    brick.CumulativeStats.FopStats.Fop.flatMap (fopObservations volumeName brick.BrickName)
  else []

/-- The profile metrics (metrics.go 318-360). -/
def collectProfile (m : Metrics) (w : World) (volumeInfo : VolumeInfoXML) : Outcome :=
  if w.profile then
    forEach volumeInfo.VolInfo.Volumes.Volume fun volume =>
      match inScope m volume.Name with
      | none => Outcome.panic
      | some true =>
        Outcome.ok
          ((GetVolumeProfileGvInfoCumulative w volume.Name).1.Brick.flatMap
            (brickObservations m volume.Name))
      | some false => Outcome.ok []
  else Outcome.ok []

/-- The observations of one node (metrics.go 369-382). -/
def nodeObservations (volName : String) (node : Node) : List Observation :=
  [MustNewConstMetric .nodeSizeTotalBytes .CounterValue (.ofInt node.SizeTotal)
     [node.Hostname, node.Path, volName],
   MustNewConstMetric .nodeSizeFreeBytes .GaugeValue (.ofInt node.SizeFree)
     [node.Hostname, node.Path, volName],
   MustNewConstMetric .nodeInodesTotal .CounterValue (.ofInt node.InodesTotal)
     [node.Hostname, node.Path, volName],
   MustNewConstMetric .nodeInodesFree .GaugeValue (.ofInt node.InodesFree)
     [node.Hostname, node.Path, volName]]

/-- The node capacity metrics (metrics.go 362-384). -/
def collectStatus (w : World) : Outcome :=
  Outcome.ok
    ((GetVolumeStatusAllDetail w).1.VolStatus.Volumes.Volume.flatMap fun vol =>
      vol.Node.flatMap (nodeObservations vol.VolName))

/-- The volumes of the heal check (metrics.go 385-393); `none` is the index-out-of-range
panic of `vols[0]`. -/
def healVolumes (m : Metrics) (w : World) : Option (List String) :=
  match m.volumes with
  | [] => none
  | first :: _ =>
    if first == allVolumes then some (GetVolumeList w).1.Volume else some m.volumes

/-- The heal observation of one volume (metrics.go 396-401). -/
def healObservations (w : World) (vol : String) : List Observation :=
  match GetVolumeHealInfo w vol with
  | (filesCount, none) =>
    [MustNewConstMetric .healInfoFilesCount .CounterValue (.ofInt filesCount) [vol]]
  | (_, some _) => []

/-- The heal metrics (metrics.go 385-402). -/
def collectHeal (m : Metrics) (w : World) : Outcome :=
  match healVolumes m w with
  | none => Outcome.panic
  | some vols => Outcome.ok (vols.flatMap (healObservations w))

/-- The observations of one mount on the success branch (metrics.go 420-436). -/
def mountObservations (w : World) (mount : Mount) : List Observation :=
  [MustNewConstMetric .mountSuccessful .GaugeValue (.ofInt 1) [mount.Volume, mount.MountPoint],
   if (ExecTouchOnVolumes w mount.MountPoint).1 then
     MustNewConstMetric .volumeWriteable .GaugeValue (.ofInt 1) [mount.Volume, mount.MountPoint]
   else
     MustNewConstMetric .volumeWriteable .GaugeValue (.ofInt 0) [mount.Volume, mount.MountPoint]]

/-- The mount metrics (metrics.go 404-439). -/
def collectMounts (w : World) : Outcome :=
  match GetMountCheck w with
  | (_, some _) => Outcome.ok []
  | (mountBuffer, none) =>
    match ParseMountOutput mountBuffer with
    | none => Outcome.panic
    | some (mounts, some _) =>
      if mounts.length > 0 then
        Outcome.ok (mounts.map fun mount =>
          MustNewConstMetric .mountSuccessful .GaugeValue (.ofInt 0)
            [mount.Volume, mount.MountPoint])
      else Outcome.ok []
    | some (mounts, none) => Outcome.ok (mounts.flatMap (mountObservations w))

/-- The observations of one quota limit (metrics.go 448-501). -/
def quotaObservations (volumeName : String) (limit : QuotaLimit) : List Observation :=
  [MustNewConstMetric .quotaHardLimit .CounterValue (.ofInt limit.HardLimit)
     [limit.Path, volumeName],
   MustNewConstMetric .quotaSoftLimit .CounterValue (.ofInt limit.SoftLimitValue)
     [limit.Path, volumeName],
   MustNewConstMetric .quotaUsed .CounterValue (.ofInt limit.UsedSpace)
     [limit.Path, volumeName],
   MustNewConstMetric .quotaAvailable .CounterValue (.ofInt limit.AvailSpace)
     [limit.Path, volumeName],
   MustNewConstMetric .quotaSoftLimitExceeded .CounterValue
     (if limit.SlExceeded != "No" then .ofInt 1 else .ofInt 0) [limit.Path, volumeName],
   MustNewConstMetric .quotaHardLimitExceeded .CounterValue
     (if limit.HlExceeded != "No" then .ofInt 1 else .ofInt 0) [limit.Path, volumeName]]

/-- The quota metrics (metrics.go 440-506). -/
def collectQuota (m : Metrics) (w : World) (volumeInfo : VolumeInfoXML) : Outcome :=
  if w.quota then
    forEach volumeInfo.VolInfo.Volumes.Volume fun volume =>
      match inScope m volume.Name with
      | none => Outcome.panic
      | some true =>
        match GetVolumeQuotaList w volume.Name with
        | (_, some _) => Outcome.ok []
        | (volumeQuotaXML, none) =>
          Outcome.ok (volumeQuotaXML.VolQuota.QuotaLimits.flatMap (quotaObservations volume.Name))
      | some false => Outcome.ok []
  else Outcome.ok []

/-- `Metrics.Collect` (metrics.go 266-507). -/
def Collect (m : Metrics) (w : World) : Outcome :=
  (collectUp (GetVolumeInfo w).1 (GetVolumeInfo w).2).seq <|
  (collectVolumes m (GetVolumeInfo w).1).seq <|
  (collectPeers w).seq <|
  (collectProfile m w (GetVolumeInfo w).1).seq <|
  (collectStatus w).seq <|
  (collectHeal m w).seq <|
  (collectMounts w).seq <|
  collectQuota m w (GetVolumeInfo w).1

/-! ## Definitions used to state the properties -/

/-- The scope rule in the words of the specification: the sentinel is active (it is the
first configured entry) or the name is a member of the configured list. -/
def ScopeSelects (m : Metrics) (name : String) : Prop :=
  m.volumes.head? = some allVolumes ∨ name ∈ m.volumes

instance (m : Metrics) (name : String) : Decidable (ScopeSelects m name) := by
  unfold ScopeSelects; infer_instance

/-- A token of a mount line: not empty and free of white space. -/
def isToken (t : String) : Bool :=
  !t.data.isEmpty && t.data.all (fun c => !isSpace c)

/-- White space around a mount line: white space other than the line break. -/
def isPadding (p : String) : Bool :=
  p.data.all (fun c => isSpace c && c != '\n')

/-- A line of well-formed mount output: empty, or `source on target type ...`
with single blanks between the tokens and white space allowed around them. -/
inductive MountLine where
  | empty
  | entry (lead trail source target : String) (more : List String)

/-- The tokens of a line. -/
def MountLine.tokens : MountLine → List String
  | .empty => []
  | .entry _ _ source target more => source :: "on" :: target :: "type" :: more

/-- The text of a line. -/
def MountLine.text : MountLine → List Char
  | .empty => []
  | .entry lead trail source target more =>
    lead.data ++
      [' '].intercalate ((source :: "on" :: target :: "type" :: more).map String.data) ++
      trail.data

/-- The line is well formed: padding around tokens, each free of white space. -/
def MountLine.wellFormed : MountLine → Bool
  | .empty => true
  | .entry lead trail source target more =>
    isPadding lead && isPadding trail && isToken source && isToken target && more.all isToken

/-- The mount that a line stands for: none for an empty line, otherwise the first token as
volume and the third token as mount point. -/
def MountLine.mount? : MountLine → Option Mount
  | .empty => none
  | .entry _ _ source target _ => some { MountPoint := target, Volume := source }

/-- The input made of the given lines. -/
def mountText (lines : List MountLine) : String :=
  ⟨['\n'].intercalate (lines.map MountLine.text)⟩

/-- The two lines of the first case of `TestParseMountOutput` (client_test.go 24-25). -/
def testLines : List MountLine :=
  [.entry "" " " "/dev/mapper/cryptroot" "/" ["ext4", "(rw,relatime,data=ordered)"],
   .entry "" "" "/dev/mapper/cryptroot" "/var/lib/docker/devicemapper"
     ["ext4", "(rw,relatime,data=ordered)"]]

/-- The function `strings.Fields`: the maximal runs of characters that are not white space,
that is, the whitespace-delimited tokens of a line. -/
def Fields (s : String) : List String :=
  ((s.data.splitOnP isSpace).filter (fun t => !t.isEmpty)).map String.mk

/-- A line of mount output with at least three tokens separated by single blanks, or an
empty line. -/
inductive ColumnLine where
  | empty
  | columns (lead trail first second third : String) (more : List String)

/-- The tokens of a line. -/
def ColumnLine.tokens : ColumnLine → List String
  | .empty => []
  | .columns _ _ first second third more => first :: second :: third :: more

/-- The text of a line: the tokens joined by single blanks, between the padding. -/
def ColumnLine.text : ColumnLine → List Char
  | .empty => []
  | .columns lead trail first second third more =>
    lead.data ++ [' '].intercalate ((first :: second :: third :: more).map String.data) ++
      trail.data

/-- The line is well formed: padding around tokens, each free of white space. -/
def ColumnLine.wellFormed : ColumnLine → Bool
  | .empty => true
  | .columns lead trail first second third more =>
    isPadding lead && isPadding trail && isToken first && isToken second && isToken third &&
      more.all isToken

/-- The mount that a line stands for: none for an empty line, otherwise the first token as
volume and the third token as mount point. -/
def ColumnLine.mount? : ColumnLine → Option Mount
  | .empty => none
  | .columns _ _ first _ third _ => some { MountPoint := third, Volume := first }

/-- The input made of the given lines. -/
def columnText (lines : List ColumnLine) : String :=
  ⟨['\n'].intercalate (lines.map ColumnLine.text)⟩

/-- Two lines in the general form, with padding before and after. -/
def columnLines : List ColumnLine :=
  [.columns "\t" " " "node1:/gv0" "on" "/mnt/gv0" ["type", "fuse.glusterfs", "(rw)"],
   .empty,
   .columns "" "\r" "a" "b" "c" []]

/-! ## Sample inputs -/

/-- A configuration with an explicit scope of two volumes. -/
def sampleConfig : Config :=
  { hostname := ("node1", none), binaryExists := true, glusterVolumes := "gv0,gv1" }

/-- The collector that `New` builds from `sampleConfig`. -/
def sampleMetrics : Metrics :=
  { hostname := "node1", volumes := ["gv0", "gv1"] }

/-- A configuration with the default scope, the sentinel. -/
def allConfig : Config :=
  { hostname := ("node1", none), binaryExists := true, glusterVolumes := "_all" }

/-- The collector that `New` builds from `allConfig`. -/
def allMetrics : Metrics :=
  { hostname := "node1", volumes := ["_all"] }

/-- A configuration whose scope names a volume with a failing heal check first. -/
def healConfig : Config :=
  { hostname := ("node1", none), binaryExists := true, glusterVolumes := "gv1,gv0" }

/-- The collector that `New` builds from `healConfig`. -/
def healMetrics : Metrics :=
  { hostname := "node1", volumes := ["gv1", "gv0"] }

/-- A healthy cluster: every command succeeds (its output stands for the argument vector it
was given) and every output decodes. -/
def sampleWorld : World :=
  { run := fun argv => (" ".intercalate argv, none)
    unmarshalVolumeInfo := fun _ =>
      (⟨0, ⟨⟨3, [⟨"gv0", 1, 2⟩, ⟨"gv01", 1, 4⟩, ⟨"gv", 1, 1⟩]⟩⟩⟩, none)
    unmarshalVolumeList := fun _ => (⟨⟨["gv0", "gv01", "gv"]⟩⟩, none)
    unmarshalPeerStatus := fun _ => (⟨⟨[⟨"node2"⟩, ⟨"node3"⟩]⟩⟩, none)
    unmarshalVolumeProfile := fun _ =>
      (⟨⟨[⟨"node1:/data/brick", ⟨100, 10, 20, ⟨[⟨"WRITE", 5, 0, 0, 0⟩]⟩⟩⟩,
          ⟨"node2:/data/brick", ⟨200, 30, 40, ⟨[]⟩⟩⟩]⟩⟩, none)
    unmarshalVolumeStatus := fun _ =>
      (⟨⟨⟨[⟨"gv0", [⟨"node1", "/data/brick", 1000, 400, 64, 32⟩]⟩]⟩⟩⟩, none)
    unmarshalVolumeHealInfo := fun buf =>
      if buf = "volume heal gv0 info --xml" then (⟨⟨⟨[⟨"3"⟩, ⟨"4"⟩]⟩⟩⟩, none)
      else (⟨⟨⟨[⟨"2"⟩, ⟨"-"⟩]⟩⟩⟩, none)
    unmarshalVolumeQuota := fun _ =>
      (⟨⟨[⟨"/", 100, 80, 10, 90, "No", "Yes"⟩, ⟨"/a", 100, 80, 10, 90, "no", ""⟩]⟩⟩, none)
    mount := ("node1:/gv0 on /mnt/gv0 type fuse.glusterfs (rw,relatime)\n", none)
    now := "2024-01-01 00:00:00 +0000 UTC"
    create := fun _ => none
    remove := fun _ => none
    profile := true
    quota := true }

/-- The gluster binary fails on every command (it exits with a non-zero status). -/
def execFailWorld : World :=
  { sampleWorld with run := fun _ => ("", some "exit status 1") }

/-- The output of `gluster peer status` breaks off after its first peer: `xml.Unmarshal`
reports the error and leaves the peer it had already decoded in the record. -/
def peerDecodeFailWorld : World :=
  { sampleWorld with
    unmarshalPeerStatus := fun _ => (⟨⟨[⟨"node2"⟩]⟩⟩, some "XML: unexpected EOF") }

/-- The heal information of two bricks whose entry counts add up to more than an `int`
holds. -/
def healOverflowWorld : World :=
  { sampleWorld with
    unmarshalVolumeHealInfo := fun _ => (⟨⟨⟨[⟨"9223372036854775807"⟩, ⟨"1"⟩]⟩⟩⟩, none) }

/-- The outputs of `gluster volume status all detail` and of `gluster volume profile` do not
decode to the end: `xml.Unmarshal` reports the error and leaves what it had decoded so far in
the record. -/
def detailDecodeFailWorld : World :=
  { sampleWorld with
    unmarshalVolumeStatus := fun _ =>
      (⟨⟨⟨[⟨"gv0", [⟨"node1", "/data/brick", 1000, 400, 64, 32⟩]⟩]⟩⟩⟩,
        some "XML: unexpected EOF")
    unmarshalVolumeProfile := fun _ =>
      (⟨⟨[⟨"node1:/data/brick", ⟨100, 10, 20, ⟨[]⟩⟩⟩]⟩⟩, some "XML: unexpected EOF") }

/-- The gluster binary fails on `volume status all detail` and on the profile of `gv0`, and
on nothing else. -/
def detailExecFailWorld : World :=
  { sampleWorld with
    run := fun argv =>
      if argv = ["volume", "status", "all", "detail", "--xml"] ∨
          argv = ["volume", "profile", "gv0", "info", "cumulative", "--xml"] then
        ("", some "exit status 1")
      else (" ".intercalate argv, none) }

/-- The mount listing holds a line that is not a mount line. -/
def badMountWorld : World :=
  { sampleWorld with mount := ("abcd", none) }

/-- The output of `gluster volume list` breaks off after its first volume: `xml.Unmarshal`
reports the error and leaves the volume it had already decoded in the record. -/
def listDecodeFailWorld : World :=
  { sampleWorld with
    unmarshalVolumeList := fun _ => (⟨⟨["gv0"]⟩⟩, some "XML: unexpected EOF") }

/-! ## Auxiliary lemmas -/

theorem seq_ok (a : List Observation) (b : Outcome) :
    (Outcome.ok a).seq b = ⟨a ++ b.emitted, b.panicked⟩ := by
  simp [Outcome.seq, Outcome.ok]

theorem forEach_ok {α : Type} (xs : List α) (f : α → List Observation) :
    forEach xs (fun x => Outcome.ok (f x)) = Outcome.ok (xs.flatMap f) := by
  induction xs with
  | nil => rfl
  | cons x xs ih =>
    have h : forEach (x :: xs) (fun x => Outcome.ok (f x))
        = (Outcome.ok (f x)).seq (forEach xs (fun x => Outcome.ok (f x))) := rfl
    rw [h, ih, seq_ok]
    simp [Outcome.ok]

theorem flatMap_ite_eq_filter {α β : Type} (l : List α) (c : α → Bool) (f : α → List β) :
    l.flatMap (fun x => if c x then f x else []) = (l.filter c).flatMap f := by
  induction l with
  | nil => rfl
  | cons x xs ih =>
    by_cases h : c x <;> simp [List.flatMap_cons, List.filter_cons, h, ih]

theorem New_volumes (cfg : Config) (m : Metrics) (h : New cfg = .ok m) :
    ∃ first rest, m.volumes = first :: rest := by
  unfold New at h
  split at h
  · cases h
  · split at h
    · cases h
    · dsimp only at h
      split at h
      · cases h
      · rename_i hlen
        injection h with h
        subst h
        simp only
        cases hs : Split cfg.glusterVolumes ',' with
        | nil => simp [hs] at hlen
        | cons a b => exact ⟨a, b, rfl⟩

theorem inScope_cons (m : Metrics) (name first : String) (rest : List String)
    (hv : m.volumes = first :: rest) :
    inScope m name = some (decide (ScopeSelects m name)) := by
  cases m with
  | mk hostname volumes =>
    simp only at hv
    subst hv
    by_cases h : first = allVolumes <;> simp [inScope, ScopeSelects, h]

theorem collectVolumes_cons (m : Metrics) (vi : VolumeInfoXML) (first : String)
    (rest : List String) (hv : m.volumes = first :: rest) :
    collectVolumes m vi = Outcome.ok
      ((vi.VolInfo.Volumes.Volume.filter (fun v => decide (ScopeSelects m v.Name))).flatMap
        fun volume =>
          [MustNewConstMetric .brickCount .GaugeValue (.ofInt volume.BrickCount) [volume.Name],
           MustNewConstMetric .volumeStatus .GaugeValue (.ofInt volume.Status) [volume.Name]]) := by
  unfold collectVolumes
  rw [← flatMap_ite_eq_filter, ← forEach_ok]
  congr 1
  funext volume
  rw [inScope_cons m volume.Name first rest hv]
  by_cases h : ScopeSelects m volume.Name <;> simp [h]

theorem collectProfile_cons (m : Metrics) (w : World) (vi : VolumeInfoXML) (first : String)
    (rest : List String) (hv : m.volumes = first :: rest) :
    collectProfile m w vi = Outcome.ok
      (if w.profile then
        (vi.VolInfo.Volumes.Volume.filter (fun v => decide (ScopeSelects m v.Name))).flatMap
          fun volume => (GetVolumeProfileGvInfoCumulative w volume.Name).1.Brick.flatMap
            (brickObservations m volume.Name)
       else []) := by
  unfold collectProfile
  by_cases hp : w.profile
  · simp only [hp, if_true]
    rw [← flatMap_ite_eq_filter, ← forEach_ok]
    congr 1
    funext volume
    rw [inScope_cons m volume.Name first rest hv]
    by_cases h : ScopeSelects m volume.Name <;> simp [h]
  · simp [hp]

theorem collectQuota_cons (m : Metrics) (w : World) (vi : VolumeInfoXML) (first : String)
    (rest : List String) (hv : m.volumes = first :: rest) :
    collectQuota m w vi = Outcome.ok
      (if w.quota then
        (vi.VolInfo.Volumes.Volume.filter (fun v => decide (ScopeSelects m v.Name))).flatMap
          fun volume =>
            if (GetVolumeQuotaList w volume.Name).2 = none then
              (GetVolumeQuotaList w volume.Name).1.VolQuota.QuotaLimits.flatMap
                (quotaObservations volume.Name)
            else []
       else []) := by
  unfold collectQuota
  by_cases hp : w.quota
  · simp only [hp, if_true]
    rw [← flatMap_ite_eq_filter, ← forEach_ok]
    congr 1
    funext volume
    rw [inScope_cons m volume.Name first rest hv]
    by_cases h : ScopeSelects m volume.Name
    · simp only [h, decide_True, if_true]
      rcases hq : GetVolumeQuotaList w volume.Name with ⟨q, _ | e⟩ <;> simp
    · simp [h]
  · simp [hp]

theorem collectHeal_cons (m : Metrics) (w : World) (first : String)
    (rest : List String) (hv : m.volumes = first :: rest) :
    collectHeal m w = Outcome.ok
      ((if m.volumes.head? = some allVolumes then (GetVolumeList w).1.Volume
        else m.volumes).flatMap (healObservations w)) := by
  cases m with
  | mk hostname volumes =>
    simp only at hv
    subst hv
    by_cases h : first = allVolumes <;> simp [collectHeal, healVolumes, h]

theorem Collect_cons (m : Metrics) (w : World) (first : String)
    (rest : List String) (hv : m.volumes = first :: rest) :
    (Collect m w).emitted =
      (collectUp (GetVolumeInfo w).1 (GetVolumeInfo w).2).emitted ++
      ((collectVolumes m (GetVolumeInfo w).1).emitted ++
      ((collectPeers w).emitted ++
      ((collectProfile m w (GetVolumeInfo w).1).emitted ++
      ((collectStatus w).emitted ++
      ((collectHeal m w).emitted ++
      ((collectMounts w).emitted ++
        if (collectMounts w).panicked then []
        else (collectQuota m w (GetVolumeInfo w).1).emitted)))))) := by
  unfold Collect
  rw [collectVolumes_cons m _ first rest hv, collectProfile_cons m w _ first rest hv,
    collectHeal_cons m w first rest hv, collectQuota_cons m w _ first rest hv]
  simp only [collectUp, collectPeers, collectStatus, seq_ok, Outcome.ok]
  by_cases hp : (collectMounts w).panicked <;> simp [Outcome.seq, hp]

theorem filter_desc_nil (l : List Observation) (ds : List Desc) (p : Desc → Bool)
    (h : ∀ o ∈ l, o.desc ∈ ds) (hp : ∀ d ∈ ds, p d = false) :
    l.filter (fun o => p o.desc) = [] := by
  rw [List.filter_eq_nil_iff]
  intro o ho
  simp [hp _ (h o ho)]

theorem filter_desc_self (l : List Observation) (ds : List Desc) (p : Desc → Bool)
    (h : ∀ o ∈ l, o.desc ∈ ds) (hp : ∀ d ∈ ds, p d = true) :
    l.filter (fun o => p o.desc) = l := by
  rw [List.filter_eq_self]
  intro o ho
  exact hp _ (h o ho)

theorem collectUp_descs (vi : VolumeInfoXML) (err : GoError) :
    ∀ o ∈ (collectUp vi err).emitted, o.desc ∈ [Desc.up, Desc.volumesCount] := by
  intro o ho
  unfold collectUp Outcome.ok MustNewConstMetric at ho
  simp only [List.mem_append, List.mem_singleton] at ho
  rcases ho with (ho | ho) | ho
  · cases err with
    | none => simp at ho
    | some e => simp at ho; simp [ho]
  · split at ho <;> simp at ho <;> simp [ho]
  · simp [ho]

theorem collectVolumes_descs (m : Metrics) (vi : VolumeInfoXML) (first : String)
    (rest : List String) (hv : m.volumes = first :: rest) :
    ∀ o ∈ (collectVolumes m vi).emitted, o.desc ∈ [Desc.brickCount, Desc.volumeStatus] := by
  intro o ho
  rw [collectVolumes_cons m vi first rest hv] at ho
  simp only [Outcome.ok, List.mem_flatMap, MustNewConstMetric] at ho
  obtain ⟨v, _, hv⟩ := ho
  simp at hv
  rcases hv with rfl | rfl <;> simp

theorem collectPeers_descs (w : World) :
    ∀ o ∈ (collectPeers w).emitted, o.desc ∈ [Desc.peersConnected] := by
  intro o ho
  simp [collectPeers, Outcome.ok, MustNewConstMetric] at ho
  simp [ho]

/-- The descriptors of the profile metrics. -/
theorem fopObservations_descs (volumeName brickName : String) (fop : Fop) :
    ∀ o ∈ fopObservations volumeName brickName fop,
      o.desc ∈ [Desc.brickFopHits, Desc.brickFopLatencyAvg, Desc.brickFopLatencyMin,
        Desc.brickFopLatencyMax] := by
  intro o ho
  simp [fopObservations, MustNewConstMetric] at ho
  rcases ho with rfl | rfl | rfl | rfl <;> simp

theorem brickObservations_descs (m : Metrics) (volumeName : String) (brick : Brick) :
    ∀ o ∈ brickObservations m volumeName brick,
      o.desc ∈ [Desc.brickDuration, Desc.brickDataRead, Desc.brickDataWritten,
        Desc.brickFopHits, Desc.brickFopLatencyAvg, Desc.brickFopLatencyMin,
        Desc.brickFopLatencyMax] := by
  intro o ho
  unfold brickObservations at ho
  split at ho
  · simp only [List.mem_append, List.mem_flatMap] at ho
    rcases ho with ho | ⟨fop, _, ho⟩
    · simp [MustNewConstMetric] at ho
      rcases ho with rfl | rfl | rfl <;> simp
    · have := fopObservations_descs _ _ _ o ho
      simp at this
      rcases this with h | h | h | h <;> simp [h]
  · simp at ho

theorem collectProfile_descs (m : Metrics) (w : World) (vi : VolumeInfoXML) (first : String)
    (rest : List String) (hv : m.volumes = first :: rest) :
    ∀ o ∈ (collectProfile m w vi).emitted,
      o.desc ∈ [Desc.brickDuration, Desc.brickDataRead, Desc.brickDataWritten,
        Desc.brickFopHits, Desc.brickFopLatencyAvg, Desc.brickFopLatencyMin,
        Desc.brickFopLatencyMax] := by
  intro o ho
  rw [collectProfile_cons m w vi first rest hv] at ho
  simp only [Outcome.ok] at ho
  split at ho
  · simp only [List.mem_flatMap] at ho
    obtain ⟨v, _, b, _, ho⟩ := ho
    exact brickObservations_descs _ _ _ o ho
  · simp at ho

theorem collectStatus_descs (w : World) :
    ∀ o ∈ (collectStatus w).emitted,
      o.desc ∈ [Desc.nodeSizeTotalBytes, Desc.nodeSizeFreeBytes, Desc.nodeInodesTotal,
        Desc.nodeInodesFree] := by
  intro o ho
  simp only [collectStatus, Outcome.ok, List.mem_flatMap] at ho
  obtain ⟨v, _, n, _, ho⟩ := ho
  simp [nodeObservations, MustNewConstMetric] at ho
  rcases ho with rfl | rfl | rfl | rfl <;> simp

theorem healObservations_descs (w : World) (vol : String) :
    ∀ o ∈ healObservations w vol, o.desc ∈ [Desc.healInfoFilesCount] := by
  intro o ho
  unfold healObservations at ho
  split at ho
  · simp [MustNewConstMetric] at ho
    simp [ho]
  · simp at ho

theorem collectHeal_descs (m : Metrics) (w : World) (first : String)
    (rest : List String) (hv : m.volumes = first :: rest) :
    ∀ o ∈ (collectHeal m w).emitted, o.desc ∈ [Desc.healInfoFilesCount] := by
  intro o ho
  rw [collectHeal_cons m w first rest hv] at ho
  simp only [Outcome.ok, List.mem_flatMap] at ho
  obtain ⟨v, _, ho⟩ := ho
  exact healObservations_descs _ _ o ho

theorem collectMounts_descs (w : World) :
    ∀ o ∈ (collectMounts w).emitted,
      o.desc ∈ [Desc.mountSuccessful, Desc.volumeWriteable] := by
  intro o ho
  unfold collectMounts at ho
  split at ho
  · simp [Outcome.ok] at ho
  · split at ho
    · simp [Outcome.panic] at ho
    · split at ho
      · simp [Outcome.ok, MustNewConstMetric] at ho
        obtain ⟨a, _, rfl⟩ := ho
        simp
      · simp [Outcome.ok] at ho
    · simp only [Outcome.ok, List.mem_flatMap] at ho
      obtain ⟨mt, _, ho⟩ := ho
      simp only [mountObservations, MustNewConstMetric, List.mem_cons, List.mem_singleton,
        List.not_mem_nil, or_false] at ho
      rcases ho with rfl | rfl
      · simp
      · split <;> simp

theorem quotaObservations_descs (volumeName : String) (limit : QuotaLimit) :
    ∀ o ∈ quotaObservations volumeName limit,
      o.desc ∈ [Desc.quotaHardLimit, Desc.quotaSoftLimit, Desc.quotaUsed,
        Desc.quotaAvailable, Desc.quotaSoftLimitExceeded, Desc.quotaHardLimitExceeded] := by
  intro o ho
  simp only [quotaObservations, MustNewConstMetric, List.mem_cons, List.mem_singleton,
    List.not_mem_nil, or_false] at ho
  rcases ho with rfl | rfl | rfl | rfl | rfl | rfl <;> simp

theorem collectQuota_descs (m : Metrics) (w : World) (vi : VolumeInfoXML) (first : String)
    (rest : List String) (hv : m.volumes = first :: rest) :
    ∀ o ∈ (collectQuota m w vi).emitted,
      o.desc ∈ [Desc.quotaHardLimit, Desc.quotaSoftLimit, Desc.quotaUsed,
        Desc.quotaAvailable, Desc.quotaSoftLimitExceeded, Desc.quotaHardLimitExceeded] := by
  intro o ho
  rw [collectQuota_cons m w vi first rest hv] at ho
  simp only [Outcome.ok] at ho
  split at ho
  · simp only [List.mem_flatMap] at ho
    obtain ⟨v, _, ho⟩ := ho
    split at ho
    · simp only [List.mem_flatMap] at ho
      obtain ⟨l, _, ho⟩ := ho
      exact quotaObservations_descs _ _ o ho
    · simp at ho
  · simp at ho

theorem Collect_filter (p : Desc → Bool) (m : Metrics) (w : World) (first : String)
    (rest : List String) (hv : m.volumes = first :: rest) :
    (Collect m w).emitted.filter (fun o => p o.desc) =
      (collectUp (GetVolumeInfo w).1 (GetVolumeInfo w).2).emitted.filter (fun o => p o.desc) ++
      ((collectVolumes m (GetVolumeInfo w).1).emitted.filter (fun o => p o.desc) ++
      ((collectPeers w).emitted.filter (fun o => p o.desc) ++
      ((collectProfile m w (GetVolumeInfo w).1).emitted.filter (fun o => p o.desc) ++
      ((collectStatus w).emitted.filter (fun o => p o.desc) ++
      ((collectHeal m w).emitted.filter (fun o => p o.desc) ++
      ((collectMounts w).emitted.filter (fun o => p o.desc) ++
        if (collectMounts w).panicked then []
        else (collectQuota m w (GetVolumeInfo w).1).emitted.filter
          (fun o => p o.desc))))))) := by
  rw [Collect_cons m w first rest hv]
  simp only [List.filter_append]
  by_cases hp : (collectMounts w).panicked <;> simp [hp]

theorem Collect_panicked (m : Metrics) (w : World) (first : String)
    (rest : List String) (hv : m.volumes = first :: rest) :
    (Collect m w).panicked = (collectMounts w).panicked := by
  unfold Collect
  rw [collectVolumes_cons m _ first rest hv, collectProfile_cons m w _ first rest hv,
    collectHeal_cons m w first rest hv, collectQuota_cons m w _ first rest hv]
  simp only [collectUp, collectPeers, collectStatus, seq_ok, Outcome.ok]
  by_cases hp : (collectMounts w).panicked <;> simp [Outcome.seq, hp]

theorem GetVolumeInfo_exec_failure (w : World)
    (h : (execGlusterCommand w ["volume", "info"]).2 ≠ none) :
    (GetVolumeInfo w).1 = VolumeInfoXML.zero ∧ (GetVolumeInfo w).2 ≠ none := by
  unfold GetVolumeInfo
  rcases he : execGlusterCommand w ["volume", "info"] with ⟨buf, _ | e⟩
  · rw [he] at h; exact absurd rfl h
  · simp

theorem wrapInt_add (a b : Int) : wrapInt (wrapInt a + b) = wrapInt (a + b) := by
  unfold wrapInt
  omega

theorem wrapInt_idem (a : Int) : wrapInt (wrapInt a) = wrapInt a := by
  unfold wrapInt
  omega

theorem wrapInt_of_range (a : Int) (h1 : minInt ≤ a) (h2 : a ≤ maxInt) : wrapInt a = a := by
  unfold wrapInt
  unfold minInt at h1
  unfold maxInt at h2
  omega

theorem healLoop_valid (bricks : List HealBrick) (acc : Int) (hacc : wrapInt acc = acc)
    (h : ∀ brick ∈ bricks, (Atoi brick.NumberOfEntries).2 = none) :
    healLoop bricks acc =
      (wrapInt (acc + (bricks.map fun brick => (Atoi brick.NumberOfEntries).1).sum), none) := by
  induction bricks generalizing acc with
  | nil => simp [healLoop, hacc]
  | cons b bs ih =>
    have hb := h b (List.mem_cons_self _ _)
    have hbs : ∀ brick ∈ bs, (Atoi brick.NumberOfEntries).2 = none :=
      fun x hx => h x (List.mem_cons_of_mem _ hx)
    unfold healLoop
    rcases ha : Atoi b.NumberOfEntries with ⟨count, _ | e⟩
    · simp only
      rw [ih _ (wrapInt_idem _) hbs, wrapInt_add]
      simp [ha, Int.add_assoc]
    · rw [ha] at hb
      cases hb

theorem healLoop_invalid (pre post : List HealBrick) (brick : HealBrick) (acc : Int)
    (err : String) (hpre : ∀ b ∈ pre, (Atoi b.NumberOfEntries).2 = none)
    (hbrick : (Atoi brick.NumberOfEntries).2 = some err) :
    healLoop (pre ++ brick :: post) acc = (-1, some err) := by
  induction pre generalizing acc with
  | nil =>
    rcases ha : Atoi brick.NumberOfEntries with ⟨count, _ | e⟩
    · rw [ha] at hbrick
      cases hbrick
    · rw [ha] at hbrick
      simp only [Option.some.injEq] at hbrick
      subst hbrick
      simp [healLoop, ha]
  | cons b bs ih =>
    have hb := hpre b (List.mem_cons_self _ _)
    have hbs : ∀ x ∈ bs, (Atoi x.NumberOfEntries).2 = none :=
      fun x hx => hpre x (List.mem_cons_of_mem _ hx)
    rcases ha : Atoi b.NumberOfEntries with ⟨count, _ | e⟩
    · simp only [List.cons_append, healLoop, ha]
      exact ih _ hbs
    · rw [ha] at hb
      cases hb

theorem GetVolumeHealInfo_decoded (w : World) (volumeName : String)
    (healInfo : VolumeHealInfoXML)
    (hexec : (execGlusterCommand w ["volume", "heal", volumeName, "info"]).2 = none)
    (hdec : w.unmarshalVolumeHealInfo
      (execGlusterCommand w ["volume", "heal", volumeName, "info"]).1 = (healInfo, none)) :
    GetVolumeHealInfo w volumeName = healLoop healInfo.HealInfo.Bricks.Brick 0 := by
  unfold GetVolumeHealInfo
  rcases he : execGlusterCommand w ["volume", "heal", volumeName, "info"] with ⟨buf, _ | e⟩
  · rw [he] at hdec
    simp only at hdec
    simp [hdec]
  · rw [he] at hexec
    cases hexec

theorem GetPeerStatus_exec_failure (w : World)
    (h : (execGlusterCommand w ["peer", "status"]).2 ≠ none) :
    (GetPeerStatus w).1 = PeerStatus.zero ∧ (GetPeerStatus w).2 ≠ none := by
  unfold GetPeerStatus
  rcases he : execGlusterCommand w ["peer", "status"] with ⟨buf, _ | e⟩
  · rw [he] at h; exact absurd rfl h
  · simp

theorem GetVolumeList_exec_failure (w : World)
    (h : (execGlusterCommand w ["volume", "list"]).2 ≠ none) :
    (GetVolumeList w).1 = VolList.zero ∧ (GetVolumeList w).2 ≠ none := by
  unfold GetVolumeList
  rcases he : execGlusterCommand w ["volume", "list"] with ⟨buf, _ | e⟩
  · rw [he] at h; exact absurd rfl h
  · simp

theorem HasPrefix_iff (s pre : String) : HasPrefix s pre = true ↔ ∃ t : String, s = pre ++ t := by
  unfold HasPrefix
  rw [List.isPrefixOf_iff_prefix]
  constructor
  · rintro ⟨t, ht⟩
    exact ⟨⟨t⟩, by rw [String.ext_iff, String.data_append, ht]⟩
  · rintro ⟨t, rfl⟩
    exact ⟨t.data, by rw [String.data_append]⟩

theorem length_flatMap_fopObservations (volumeName brickName : String) (fops : List Fop) :
    (fops.flatMap (fopObservations volumeName brickName)).length = 4 * fops.length := by
  induction fops with
  | nil => rfl
  | cons f fs ih =>
    rw [List.flatMap_cons, List.length_append, ih, List.length_cons]
    simp only [fopObservations, List.length_cons, List.length_nil]
    omega

theorem dropWhile_append_of_all {α : Type} (p : α → Bool) (l r : List α)
    (h : ∀ c ∈ l, p c = true) : (l ++ r).dropWhile p = r.dropWhile p := by
  induction l with
  | nil => rfl
  | cons a l ih =>
    have ha := h a (List.mem_cons_self _ _)
    simp only [List.cons_append, List.dropWhile_cons, ha, if_true]
    exact ih (fun c hc => h c (List.mem_cons_of_mem _ hc))

theorem rdropWhile_append_of_all {α : Type} (p : α → Bool) (l r : List α)
    (h : ∀ c ∈ r, p c = true) : (l ++ r).rdropWhile p = l.rdropWhile p := by
  unfold List.rdropWhile
  rw [List.reverse_append, dropWhile_append_of_all p _ _ (fun c hc => h c (List.mem_reverse.1 hc))]

theorem intercalate_cons_cons {α : Type} (sep : α) (a b : List α) (l : List (List α)) :
    [sep].intercalate (a :: b :: l) = a ++ sep :: [sep].intercalate (b :: l) := by
  simp [List.intercalate, List.intersperse]

theorem intercalate_single {α : Type} (sep : α) (a : List α) :
    [sep].intercalate [a] = a := by
  simp [List.intercalate, List.intersperse]

theorem mem_intercalate {α : Type} (sep : α) (ls : List (List α)) (c : α)
    (h : c ∈ [sep].intercalate ls) : c = sep ∨ ∃ l ∈ ls, c ∈ l := by
  induction ls with
  | nil => simp [List.intercalate] at h
  | cons a ls ih =>
    cases ls with
    | nil =>
      rw [intercalate_single] at h
      exact Or.inr ⟨a, List.mem_cons_self _ _, h⟩
    | cons b l =>
      rw [intercalate_cons_cons] at h
      simp only [List.mem_append, List.mem_cons] at h
      rcases h with h | h | h
      · exact Or.inr ⟨a, List.mem_cons_self _ _, h⟩
      · exact Or.inl h
      · rcases ih h with h | ⟨x, hx, hc⟩
        · exact Or.inl h
        · exact Or.inr ⟨x, List.mem_cons_of_mem _ hx, hc⟩

theorem intercalate_ends {α : Type} (sep : α) (p : α → Bool) (a : List α)
    (ls : List (List α)) (h : ∀ l ∈ a :: ls, l ≠ [] ∧ ∀ c ∈ l, p c = false) :
    (∃ c rest, [sep].intercalate (a :: ls) = c :: rest ∧ p c = false) ∧
    (∃ init d, [sep].intercalate (a :: ls) = init ++ [d] ∧ p d = false) := by
  induction ls generalizing a with
  | nil =>
    rw [intercalate_single]
    obtain ⟨hne, hp⟩ := h a (List.mem_cons_self _ _)
    constructor
    · cases a with
      | nil => exact absurd rfl hne
      | cons c rest => exact ⟨c, rest, rfl, hp c (List.mem_cons_self _ _)⟩
    · refine ⟨a.dropLast, a.getLast hne, (List.dropLast_append_getLast hne).symm, ?_⟩
      exact hp _ (List.getLast_mem hne)
  | cons b l ih =>
    rw [intercalate_cons_cons]
    obtain ⟨hne, hp⟩ := h a (List.mem_cons_self _ _)
    obtain ⟨_, ⟨init, d, hinit, hd⟩⟩ := ih b (fun x hx => h x (List.mem_cons_of_mem _ hx))
    constructor
    · cases a with
      | nil => exact absurd rfl hne
      | cons c rest => exact ⟨c, _, rfl, hp c (List.mem_cons_self _ _)⟩
    · refine ⟨a ++ sep :: init, d, ?_, hd⟩
      rw [hinit]
      simp

theorem length_le_utf8ByteSize (l : List Char) : l.length ≤ (String.mk l).utf8ByteSize := by
  induction l with
  | nil => simp [String.utf8ByteSize, String.utf8ByteSize.go]
  | cons c cs ih =>
    have hc := Char.utf8Size_pos c
    simp only [String.utf8ByteSize, String.utf8ByteSize.go, List.length_cons] at ih ⊢
    omega

theorem isToken_spec (t : String) (h : isToken t = true) :
    t.data ≠ [] ∧ ∀ c ∈ t.data, isSpace c = false := by
  unfold isToken at h
  simp only [Bool.and_eq_true, Bool.not_eq_true', List.all_eq_true] at h
  refine ⟨?_, h.2⟩
  intro hnil
  rw [hnil] at h
  simp at h

theorem isPadding_spec (p : String) (h : isPadding p = true) :
    ∀ c ∈ p.data, isSpace c = true ∧ c ≠ '\n' := by
  unfold isPadding at h
  simpa using h

theorem entry_tokens_spec (lead trail source target : String) (more : List String)
    (h : (MountLine.entry lead trail source target more).wellFormed = true) :
    ∀ l ∈ (source :: "on" :: target :: "type" :: more).map String.data,
      l ≠ [] ∧ ∀ c ∈ l, isSpace c = false := by
  simp only [MountLine.wellFormed, Bool.and_eq_true, List.all_eq_true] at h
  obtain ⟨⟨⟨⟨_, _⟩, hs⟩, ht⟩, hm⟩ := h
  intro l hl
  simp only [List.map_cons, List.mem_cons, List.mem_map] at hl
  rcases hl with rfl | rfl | rfl | rfl | ⟨t, ht', rfl⟩
  · exact isToken_spec _ hs
  · exact isToken_spec "on" (by decide)
  · exact isToken_spec _ ht
  · exact isToken_spec "type" (by decide)
  · exact isToken_spec _ (hm t ht')

theorem TrimSpace_entry (lead trail source target : String) (more : List String)
    (h : (MountLine.entry lead trail source target more).wellFormed = true) :
    TrimSpace ⟨(MountLine.entry lead trail source target more).text⟩ =
      ⟨[' '].intercalate ((source :: "on" :: target :: "type" :: more).map String.data)⟩ := by
  have htok := entry_tokens_spec lead trail source target more h
  simp only [MountLine.wellFormed, Bool.and_eq_true] at h
  obtain ⟨⟨⟨⟨hl, htr⟩, _⟩, _⟩, _⟩ := h
  have hlead := isPadding_spec _ hl
  have htrail := isPadding_spec _ htr
  rw [List.map_cons] at htok
  obtain ⟨⟨c, rest, hhead, hc⟩, ⟨init, d, hlast, hd⟩⟩ :=
    intercalate_ends ' ' isSpace source.data
      (("on" :: target :: "type" :: more).map String.data) htok
  unfold TrimSpace MountLine.text
  simp only [List.map_cons] at hhead hlast ⊢
  congr 1
  rw [List.append_assoc, dropWhile_append_of_all isSpace _ _ (fun x hx => (hlead x hx).1),
    hhead, List.cons_append, List.dropWhile_cons_of_neg (by simp [hc]), ← List.cons_append,
    ← hhead, rdropWhile_append_of_all isSpace _ _ (fun x hx => (htrail x hx).1), hlast,
    List.rdropWhile_concat]
  simp [hd]

theorem Split_tokens (tokens : List String) (hne : tokens ≠ [])
    (h : ∀ l ∈ tokens.map String.data, l ≠ [] ∧ ∀ c ∈ l, isSpace c = false) :
    Split ⟨[' '].intercalate (tokens.map String.data)⟩ ' ' = tokens := by
  unfold Split
  rw [List.splitOn_intercalate _ ' ' _ (by simpa using hne)]
  · rw [List.map_map]
    have hid : (String.mk ∘ String.data) = id := by
      funext t
      rfl
    rw [hid, List.map_id]
  · intro l hl hmem
    have := (h l hl).2 ' ' hmem
    revert this
    decide

theorem len_entry (lead trail source target : String) (more : List String)
    (h : (MountLine.entry lead trail source target more).wellFormed = true) :
    len ⟨(MountLine.entry lead trail source target more).text⟩ > 3 := by
  have htok := entry_tokens_spec lead trail source target more h
  have hs := (htok source.data (by simp)).1
  have ht := (htok target.data (by simp)).1
  have hlen := length_le_utf8ByteSize (MountLine.entry lead trail source target more).text
  unfold len
  have h1 : 0 < source.data.length := List.length_pos.2 hs
  have h2 : 0 < target.data.length := List.length_pos.2 ht
  have h3 : source.data.length + 1 + (2 + 1 + (target.data.length)) ≤
      (MountLine.entry lead trail source target more).text.length := by
    unfold MountLine.text
    simp only [List.map_cons, intercalate_cons_cons, List.length_append, List.length_cons]
    have : ("on" : String).data.length = 2 := by decide
    omega
  omega

theorem text_no_newline (line : MountLine) (h : line.wellFormed = true) :
    '\n' ∉ line.text := by
  cases line with
  | empty => simp [MountLine.text]
  | entry lead trail source target more =>
    have htok := entry_tokens_spec lead trail source target more h
    simp only [MountLine.wellFormed, Bool.and_eq_true] at h
    obtain ⟨⟨⟨⟨hl, htr⟩, _⟩, _⟩, _⟩ := h
    have hlead := isPadding_spec _ hl
    have htrail := isPadding_spec _ htr
    intro hmem
    unfold MountLine.text at hmem
    simp only [List.mem_append] at hmem
    rcases hmem with (hmem | hmem) | hmem
    · exact (hlead _ hmem).2 rfl
    · rcases mem_intercalate _ _ _ hmem with hsep | ⟨l, hl, hc⟩
      · revert hsep
        decide
      · have := (htok l hl).2 _ hc
        revert this
        decide
    · exact (htrail _ hmem).2 rfl

theorem parseMountRows_lines (lines : List MountLine) (acc : List Mount)
    (h : ∀ line ∈ lines, line.wellFormed = true) :
    parseMountRows (lines.map fun line => ⟨line.text⟩) acc =
      some (acc ++ lines.filterMap MountLine.mount?) := by
  induction lines generalizing acc with
  | nil => simp [parseMountRows]
  | cons line lines ih =>
    have hrest : ∀ l ∈ lines, l.wellFormed = true := fun l hl => h l (List.mem_cons_of_mem _ hl)
    have hline := h line (List.mem_cons_self _ _)
    cases line with
    | empty =>
      have hlen : ¬ len ⟨MountLine.empty.text⟩ > 3 := by decide
      simp only [List.map_cons, parseMountRows, hlen, if_false]
      rw [ih _ hrest]
      simp [MountLine.mount?]
    | entry lead trail source target more =>
      have hlen := len_entry lead trail source target more hline
      simp only [List.map_cons, parseMountRows, hlen, if_true]
      rw [TrimSpace_entry lead trail source target more hline,
        Split_tokens (source :: "on" :: target :: "type" :: more) (by simp)
          (entry_tokens_spec lead trail source target more hline)]
      simp only [List.getElem?_cons_succ, List.getElem?_cons_zero]
      rw [ih _ hrest]
      simp [MountLine.mount?]

theorem Split_mountText (lines : List MountLine) (hne : lines ≠ [])
    (h : ∀ line ∈ lines, line.wellFormed = true) :
    Split (mountText lines) '\n' = lines.map fun line => ⟨line.text⟩ := by
  unfold Split mountText
  rw [List.splitOn_intercalate _ '\n' _ (by simpa using hne)]
  · rw [List.map_map]
    rfl
  · intro l hl
    simp only [List.mem_map] at hl
    obtain ⟨line, hline, rfl⟩ := hl
    exact text_no_newline line (h line hline)

/-! ## Properties of the specification, C1 to C10 -/

/-- C1 (the code departs from the claim). When the gluster command behind `GetVolumeInfo`
fails, `GetVolumeInfo` returns an error and `Collect` sends two liveness observations: the
value 0 of the error branch and then the value 1 of the `OpErrno` test on the empty
record. -/
theorem C1_liveness_on_fetch_failure :
    (GetVolumeInfo execFailWorld).2 ≠ none ∧
    (Collect allMetrics execFailWorld).emitted.filter (fun o => o.desc == Desc.up) =
      [MustNewConstMetric .up .GaugeValue (.ofInt 0) [],
       MustNewConstMetric .up .GaugeValue (.ofInt 1) []] := by
  decide

/-- C2. The per-volume gauges (brick_available, volume_status) that `Collect` sends are
exactly those of the catalogue volumes for which the sentinel `_all` is active (it is the
first configured entry) or whose name is equal to an element of the configured list, in
catalogue order: membership is equality of names, never a prefix or substring match. -/
theorem C2_scope_selection (cfg : Config) (m : Metrics) (w : World)
    (h : New cfg = Except.ok m) :
    (Collect m w).emitted.filter
        (fun o => o.desc == Desc.brickCount || o.desc == Desc.volumeStatus) =
      ((GetVolumeInfo w).1.VolInfo.Volumes.Volume.filter
        (fun v => decide (m.volumes.head? = some "_all" ∨ v.Name ∈ m.volumes))).flatMap
        fun v =>
          [MustNewConstMetric .brickCount .GaugeValue (.ofInt v.BrickCount) [v.Name],
           MustNewConstMetric .volumeStatus .GaugeValue (.ofInt v.Status) [v.Name]] := by
  obtain ⟨first, rest, hv⟩ := New_volumes cfg m h
  have hnil : ∀ (l : List Observation) (ds : List Desc), (∀ o ∈ l, o.desc ∈ ds) →
      (∀ d ∈ ds, (d == Desc.brickCount || d == Desc.volumeStatus) = false) →
      l.filter (fun o => o.desc == Desc.brickCount || o.desc == Desc.volumeStatus) = [] :=
    fun l ds => filter_desc_nil l ds _
  have hself : ∀ (l : List Observation) (ds : List Desc), (∀ o ∈ l, o.desc ∈ ds) →
      (∀ d ∈ ds, (d == Desc.brickCount || d == Desc.volumeStatus) = true) →
      l.filter (fun o => o.desc == Desc.brickCount || o.desc == Desc.volumeStatus) = l :=
    fun l ds => filter_desc_self l ds _
  rw [Collect_filter (fun d => d == Desc.brickCount || d == Desc.volumeStatus) m w first rest hv,
    hnil _ _ (collectUp_descs _ _) (by decide),
    hnil _ _ (collectPeers_descs _) (by decide),
    hnil _ _ (collectProfile_descs m w _ first rest hv) (by decide),
    hnil _ _ (collectStatus_descs _) (by decide),
    hnil _ _ (collectHeal_descs m w first rest hv) (by decide),
    hnil _ _ (collectMounts_descs _) (by decide),
    hnil _ _ (collectQuota_descs m w _ first rest hv) (by decide),
    hself _ _ (collectVolumes_descs m _ first rest hv) (by decide),
    collectVolumes_cons m _ first rest hv]
  simp [Outcome.ok, ScopeSelects, allVolumes]

/-- C2, at a concrete input: with the scope `gv0,gv1` and the catalogue `gv0`, `gv01`, `gv`,
only `gv0` is selected. -/
theorem C2_scope_selection_witness :
    New sampleConfig = Except.ok sampleMetrics ∧
    (Collect sampleMetrics sampleWorld).emitted.filter
        (fun o => o.desc == Desc.brickCount || o.desc == Desc.volumeStatus) =
      [MustNewConstMetric .brickCount .GaugeValue (.ofInt 2) ["gv0"],
       MustNewConstMetric .volumeStatus .GaugeValue (.ofInt 1) ["gv0"]] :=
  ⟨rfl, (C2_scope_selection sampleConfig sampleMetrics sampleWorld rfl).trans (by decide)⟩

/-- C3 (as stated it fails). Two bricks report `9223372036854775807` and `1`, both valid
integer text; `GetVolumeHealInfo` returns no error, but its count is not the sum of the two
values: the addition in `int` wraps around to `-9223372036854775808`. -/
theorem C3_heal_sum_counterexample :
    (execGlusterCommand healOverflowWorld ["volume", "heal", "gv0", "info"]).2 = none ∧
    healOverflowWorld.unmarshalVolumeHealInfo
        (execGlusterCommand healOverflowWorld ["volume", "heal", "gv0", "info"]).1 =
      (⟨⟨⟨[⟨"9223372036854775807"⟩, ⟨"1"⟩]⟩⟩⟩, none) ∧
    (Atoi "9223372036854775807" = (9223372036854775807, none) ∧ Atoi "1" = (1, none)) ∧
    GetVolumeHealInfo healOverflowWorld "gv0" = (-9223372036854775808, none) ∧
    GetVolumeHealInfo healOverflowWorld "gv0" ≠ (9223372036854775807 + 1, none) := by
  decide

/-- C3 (amended). For every decoded heal-info record: when every brick's `NumberOfEntries`
is valid integer text (`strconv.Atoi` accepts it), `GetVolumeHealInfo` returns no error and
the sum of the parsed values wrapped to the 64-bit range of `int`, which is the sum itself
whenever the sum lies in that range; and when some brick's `NumberOfEntries` is not valid
integer text, it returns -1 and the error of the first such brick, whatever follows it. -/
theorem C3_heal_sum (w : World) (volumeName : String) (healInfo : VolumeHealInfoXML)
    (hexec : (execGlusterCommand w ["volume", "heal", volumeName, "info"]).2 = none)
    (hdec : w.unmarshalVolumeHealInfo
      (execGlusterCommand w ["volume", "heal", volumeName, "info"]).1 = (healInfo, none)) :
    ((∀ brick ∈ healInfo.HealInfo.Bricks.Brick, (Atoi brick.NumberOfEntries).2 = none) →
      GetVolumeHealInfo w volumeName =
        (wrapInt (healInfo.HealInfo.Bricks.Brick.map
          fun brick => (Atoi brick.NumberOfEntries).1).sum, none) ∧
      (minInt ≤ (healInfo.HealInfo.Bricks.Brick.map
          fun brick => (Atoi brick.NumberOfEntries).1).sum →
        (healInfo.HealInfo.Bricks.Brick.map
          fun brick => (Atoi brick.NumberOfEntries).1).sum ≤ maxInt →
        GetVolumeHealInfo w volumeName =
          ((healInfo.HealInfo.Bricks.Brick.map
            fun brick => (Atoi brick.NumberOfEntries).1).sum, none))) ∧
    (∀ (pre post : List HealBrick) (brick : HealBrick) (err : String),
      healInfo.HealInfo.Bricks.Brick = pre ++ brick :: post →
      (∀ b ∈ pre, (Atoi b.NumberOfEntries).2 = none) →
      (Atoi brick.NumberOfEntries).2 = some err →
      GetVolumeHealInfo w volumeName = (-1, some err)) := by
  rw [GetVolumeHealInfo_decoded w volumeName healInfo hexec hdec]
  refine ⟨fun hall => ?_, fun pre post brick err hsplit hpre hbrick => ?_⟩
  · have hsum := healLoop_valid healInfo.HealInfo.Bricks.Brick 0 (by decide) hall
    rw [Int.zero_add] at hsum
    refine ⟨hsum, fun h1 h2 => ?_⟩
    rw [hsum, wrapInt_of_range _ h1 h2]
  · rw [hsplit]
    exact healLoop_invalid pre post brick 0 err hpre hbrick

/-- C3 (amended), at a concrete input: bricks reporting `3` and `4` give the count 7, and
bricks reporting `2` and `-` give an error. -/
theorem C3_heal_sum_witness :
    (execGlusterCommand sampleWorld ["volume", "heal", "gv0", "info"]).2 = none ∧
    sampleWorld.unmarshalVolumeHealInfo
        (execGlusterCommand sampleWorld ["volume", "heal", "gv0", "info"]).1 =
      (⟨⟨⟨[⟨"3"⟩, ⟨"4"⟩]⟩⟩⟩, none) ∧
    GetVolumeHealInfo sampleWorld "gv0" = (7, none) :=
  ⟨by decide, by decide,
    ((C3_heal_sum sampleWorld "gv0" ⟨⟨⟨[⟨"3"⟩, ⟨"4"⟩]⟩⟩⟩ (by decide) (by decide)).1
      (by decide)).2 (by decide) (by decide)⟩

/-- C4. The quota exceeded observations that `Collect` sends are, for every limit entry of
every in-scope volume whose quota list was fetched (quota reporting enabled, the run not
ended by a panic in the mount step), one soft-limit and one hard-limit observation whose
value is 0 when the raw string (`SlExceeded`, `HlExceeded`) is exactly `No` and 1 for every
other string. -/
theorem C4_quota_exceeded_flags (cfg : Config) (m : Metrics) (w : World)
    (h : New cfg = Except.ok m) :
    (Collect m w).emitted.filter
        (fun o => o.desc == Desc.quotaSoftLimitExceeded ||
          o.desc == Desc.quotaHardLimitExceeded) =
      if (Collect m w).panicked then []
      else if w.quota then
        ((GetVolumeInfo w).1.VolInfo.Volumes.Volume.filter
          (fun v => decide (m.volumes.head? = some "_all" ∨ v.Name ∈ m.volumes))).flatMap
          fun v =>
            if (GetVolumeQuotaList w v.Name).2 = none then
              (GetVolumeQuotaList w v.Name).1.VolQuota.QuotaLimits.flatMap fun limit =>
                [MustNewConstMetric .quotaSoftLimitExceeded .CounterValue
                   (.ofInt (if limit.SlExceeded = "No" then 0 else 1)) [limit.Path, v.Name],
                 MustNewConstMetric .quotaHardLimitExceeded .CounterValue
                   (.ofInt (if limit.HlExceeded = "No" then 0 else 1)) [limit.Path, v.Name]]
            else []
      else [] := by
  obtain ⟨first, rest, hv⟩ := New_volumes cfg m h
  have hnil : ∀ (l : List Observation) (ds : List Desc), (∀ o ∈ l, o.desc ∈ ds) →
      (∀ d ∈ ds, (d == Desc.quotaSoftLimitExceeded || d == Desc.quotaHardLimitExceeded)
        = false) →
      l.filter (fun o => o.desc == Desc.quotaSoftLimitExceeded ||
        o.desc == Desc.quotaHardLimitExceeded) = [] :=
    fun l ds => filter_desc_nil l ds _
  rw [Collect_filter (fun d => d == Desc.quotaSoftLimitExceeded ||
      d == Desc.quotaHardLimitExceeded) m w first rest hv,
    hnil _ _ (collectUp_descs _ _) (by decide),
    hnil _ _ (collectVolumes_descs m _ first rest hv) (by decide),
    hnil _ _ (collectPeers_descs _) (by decide),
    hnil _ _ (collectProfile_descs m w _ first rest hv) (by decide),
    hnil _ _ (collectStatus_descs _) (by decide),
    hnil _ _ (collectHeal_descs m w first rest hv) (by decide),
    hnil _ _ (collectMounts_descs _) (by decide),
    Collect_panicked m w first rest hv, collectQuota_cons m w _ first rest hv]
  simp only [List.nil_append, Outcome.ok]
  by_cases hp : (collectMounts w).panicked
  · simp [hp]
  · simp only [hp, Bool.false_eq_true, if_false]
    by_cases hq : w.quota
    · simp only [hq, if_true, List.filter_flatMap]
      have hscope : (fun v : Volume => decide (ScopeSelects m v.Name)) =
          (fun v : Volume => decide (m.volumes.head? = some "_all" ∨ v.Name ∈ m.volumes)) := rfl
      rw [hscope]
      congr 1
      funext v
      by_cases he : (GetVolumeQuotaList w v.Name).2 = none
      · simp only [he, if_true, List.filter_flatMap]
        congr 1
        funext limit
        by_cases h1 : limit.SlExceeded = "No" <;> by_cases h2 : limit.HlExceeded = "No" <;>
          simp [quotaObservations, MustNewConstMetric, List.filter_cons, h1, h2]
      · simp [he]
    · simp [hq]

/-- C4, at a concrete input: the limits with flags (`No`, `Yes`) and (`no`, empty) of the
volume `gv0` give the values 0, 1 and 1, 1. -/
theorem C4_quota_exceeded_flags_witness :
    New sampleConfig = Except.ok sampleMetrics ∧
    (Collect sampleMetrics sampleWorld).emitted.filter
        (fun o => o.desc == Desc.quotaSoftLimitExceeded ||
          o.desc == Desc.quotaHardLimitExceeded) =
      [MustNewConstMetric .quotaSoftLimitExceeded .CounterValue (.ofInt 0) ["/", "gv0"],
       MustNewConstMetric .quotaHardLimitExceeded .CounterValue (.ofInt 1) ["/", "gv0"],
       MustNewConstMetric .quotaSoftLimitExceeded .CounterValue (.ofInt 1) ["/a", "gv0"],
       MustNewConstMetric .quotaHardLimitExceeded .CounterValue (.ofInt 1) ["/a", "gv0"]] :=
  ⟨rfl, (C4_quota_exceeded_flags sampleConfig sampleMetrics sampleWorld rfl).trans (by decide)⟩

/-- C5. For every input whose lines are each either empty or a mount line
`source on target type ...` (tokens free of white space, single blanks between them, white
space other than a line break allowed before and after), `ParseMountOutput` returns, without
panic and with a nil error, exactly one `Mount` per non-empty line, in the order of the
lines, whose `Volume` is the first token of the line and whose `MountPoint` is its third
token. The lines that `ParseMountOutput` splits the input into are the given lines. -/
theorem C5_parse_mount_lines (lines : List MountLine)
    (h : ∀ line ∈ lines, line.wellFormed = true) :
    ParseMountOutput (mountText lines) = some (lines.filterMap MountLine.mount?, none) ∧
    (lines ≠ [] → Split (mountText lines) '\n' = lines.map fun line => ⟨line.text⟩) ∧
    (∀ line ∈ lines, ∀ mount : Mount, line.mount? = some mount →
      line.tokens[0]? = some mount.Volume ∧ line.tokens[2]? = some mount.MountPoint) := by
  refine ⟨?_, fun hne => Split_mountText lines hne h, ?_⟩
  · unfold ParseMountOutput
    by_cases hne : lines = []
    · subst hne
      rfl
    · rw [Split_mountText lines hne h, parseMountRows_lines lines [] h]
      rfl
  · intro line _ mount hm
    cases line with
    | empty => simp [MountLine.mount?] at hm
    | entry lead trail source target more =>
      simp only [MountLine.mount?, Option.some.injEq] at hm
      subst hm
      simp [MountLine.tokens]

/-- C5, at a concrete input: the two lines of the first case of `TestParseMountOutput`. -/
theorem C5_parse_mount_lines_witness :
    (∀ line ∈ testLines, line.wellFormed = true) ∧
    mountText testLines =
      "/dev/mapper/cryptroot on / type ext4 (rw,relatime,data=ordered) \n/dev/mapper/cryptroot on /var/lib/docker/devicemapper type ext4 (rw,relatime,data=ordered)" ∧
    ParseMountOutput (mountText testLines) =
      some ([{ MountPoint := "/", Volume := "/dev/mapper/cryptroot" },
             { MountPoint := "/var/lib/docker/devicemapper",
               Volume := "/dev/mapper/cryptroot" }], none) :=
  ⟨by decide, by decide, (C5_parse_mount_lines testLines (by decide)).1⟩

/-- C6 (the code departs from the claim). The line `a b ` is four bytes long and its
trimmed form `a b` has three characters; `ParseMountOutput` does not ignore it: the length
test is made on the untrimmed line, the trimmed line splits into two columns, and the access
to the third column panics, so the mount line that follows is not parsed either. Without the
trailing blank the line is ignored and the following line is parsed. -/
theorem C6_short_trimmed_line_panics :
    TrimSpace "a b " = "a b" ∧ len "a b " = 4 ∧
    ParseMountOutput "a b \n/dev/x on /mnt/data type fuse.glusterfs (rw)" = none ∧
    ParseMountOutput "a b\n/dev/x on /mnt/data type fuse.glusterfs (rw)" =
      some ([{ MountPoint := "/mnt/data", Volume := "/dev/x" }], none) := by
  decide

/-- C7 (as stated it fails). The gluster command behind `GetVolumeInfo` fails, so
`GetVolumeInfo` returns an error; `Collect` nevertheless sends a volumes_available
observation, of value 0. -/
theorem C7_volume_count_counterexample :
    (GetVolumeInfo execFailWorld).2 ≠ none ∧
    MustNewConstMetric .volumesCount .GaugeValue (.ofInt 0) [] ∈
      (Collect sampleMetrics execFailWorld).emitted := by
  decide

/-- C7 (amended). Whenever `GetVolumeInfo` fails in executing the gluster command, it
returns an error, `Collect` sends exactly one volumes_available observation, of value 0,
and no per-volume brick_available or volume_status observation. -/
theorem C7_volume_count_on_exec_failure (cfg : Config) (m : Metrics) (w : World)
    (h : New cfg = Except.ok m)
    (hexec : (execGlusterCommand w ["volume", "info"]).2 ≠ none) :
    (GetVolumeInfo w).2 ≠ none ∧
    (Collect m w).emitted.filter (fun o => o.desc == Desc.volumesCount) =
      [MustNewConstMetric .volumesCount .GaugeValue (.ofInt 0) []] ∧
    (Collect m w).emitted.filter
      (fun o => o.desc == Desc.brickCount || o.desc == Desc.volumeStatus) = [] := by
  obtain ⟨first, rest, hv⟩ := New_volumes cfg m h
  obtain ⟨hzero, herr⟩ := GetVolumeInfo_exec_failure w hexec
  refine ⟨herr, ?_, ?_⟩
  · have hnil : ∀ (l : List Observation) (ds : List Desc), (∀ o ∈ l, o.desc ∈ ds) →
        (∀ d ∈ ds, (d == Desc.volumesCount) = false) →
        l.filter (fun o => o.desc == Desc.volumesCount) = [] :=
      fun l ds => filter_desc_nil l ds _
    rw [Collect_filter (fun d => d == Desc.volumesCount) m w first rest hv,
      hnil _ _ (collectVolumes_descs m _ first rest hv) (by decide),
      hnil _ _ (collectPeers_descs _) (by decide),
      hnil _ _ (collectProfile_descs m w _ first rest hv) (by decide),
      hnil _ _ (collectStatus_descs _) (by decide),
      hnil _ _ (collectHeal_descs m w first rest hv) (by decide),
      hnil _ _ (collectMounts_descs _) (by decide),
      hnil _ _ (collectQuota_descs m w _ first rest hv) (by decide), hzero]
    rcases hr : (GetVolumeInfo w).2 with _ | e
    · exact absurd hr herr
    · simp [collectUp, Outcome.ok, MustNewConstMetric, VolumeInfoXML.zero, List.filter_cons]
  · have hnil : ∀ (l : List Observation) (ds : List Desc), (∀ o ∈ l, o.desc ∈ ds) →
        (∀ d ∈ ds, (d == Desc.brickCount || d == Desc.volumeStatus) = false) →
        l.filter (fun o => o.desc == Desc.brickCount || o.desc == Desc.volumeStatus) = [] :=
      fun l ds => filter_desc_nil l ds _
    rw [Collect_filter (fun d => d == Desc.brickCount || d == Desc.volumeStatus) m w first
        rest hv,
      hnil _ _ (collectUp_descs _ _) (by decide),
      hnil _ _ (collectPeers_descs _) (by decide),
      hnil _ _ (collectProfile_descs m w _ first rest hv) (by decide),
      hnil _ _ (collectStatus_descs _) (by decide),
      hnil _ _ (collectHeal_descs m w first rest hv) (by decide),
      hnil _ _ (collectMounts_descs _) (by decide),
      hnil _ _ (collectQuota_descs m w _ first rest hv) (by decide),
      collectVolumes_cons m _ first rest hv, hzero]
    simp [Outcome.ok, VolumeInfoXML.zero]

/-- C7 (amended), at a concrete input: the gluster binary exits with a non-zero status. -/
theorem C7_volume_count_on_exec_failure_witness :
    New allConfig = Except.ok allMetrics ∧
    (execGlusterCommand execFailWorld ["volume", "info"]).2 ≠ none ∧
    (Collect allMetrics execFailWorld).emitted.filter (fun o => o.desc == Desc.volumesCount) =
      [MustNewConstMetric .volumesCount .GaugeValue (.ofInt 0) []] :=
  ⟨rfl, by decide,
    (C7_volume_count_on_exec_failure allConfig allMetrics execFailWorld rfl (by decide)).2.1⟩

/-- C8 (as stated it fails). The output of `gluster peer status` does not decode, so
`GetPeerStatus` returns an error, next to the peer that was decoded before the error;
`Collect` sends peers_connected with value 1, not 0. -/
theorem C8_peers_connected_counterexample :
    (GetPeerStatus peerDecodeFailWorld).2 ≠ none ∧
    (Collect sampleMetrics peerDecodeFailWorld).emitted.filter
        (fun o => o.desc == Desc.peersConnected) =
      [MustNewConstMetric .peersConnected .GaugeValue (.ofInt 1) []] := by
  decide

/-- C8 (amended). In every scrape `Collect` sends exactly one peers_connected observation;
its value is the length of the peer list returned by `GetPeerStatus` when that call
succeeds, and 0 when `GetPeerStatus` fails in executing the gluster command. -/
theorem C8_peers_connected (cfg : Config) (m : Metrics) (w : World)
    (h : New cfg = Except.ok m) :
    ((Collect m w).emitted.filter (fun o => o.desc == Desc.peersConnected)).length = 1 ∧
    ((GetPeerStatus w).2 = none →
      (Collect m w).emitted.filter (fun o => o.desc == Desc.peersConnected) =
        [MustNewConstMetric .peersConnected .GaugeValue
          (.ofInt ((GetPeerStatus w).1.Peer.length : Int)) []]) ∧
    ((execGlusterCommand w ["peer", "status"]).2 ≠ none →
      (GetPeerStatus w).2 ≠ none ∧
      (Collect m w).emitted.filter (fun o => o.desc == Desc.peersConnected) =
        [MustNewConstMetric .peersConnected .GaugeValue (.ofInt 0) []]) := by
  obtain ⟨first, rest, hv⟩ := New_volumes cfg m h
  have hnil : ∀ (l : List Observation) (ds : List Desc), (∀ o ∈ l, o.desc ∈ ds) →
      (∀ d ∈ ds, (d == Desc.peersConnected) = false) →
      l.filter (fun o => o.desc == Desc.peersConnected) = [] :=
    fun l ds => filter_desc_nil l ds _
  have key : (Collect m w).emitted.filter (fun o => o.desc == Desc.peersConnected) =
      [MustNewConstMetric .peersConnected .GaugeValue
        (.ofInt ((GetPeerStatus w).1.Peer.length : Int)) []] := by
    rw [Collect_filter (fun d => d == Desc.peersConnected) m w first rest hv,
      hnil _ _ (collectUp_descs _ _) (by decide),
      hnil _ _ (collectVolumes_descs m _ first rest hv) (by decide),
      hnil _ _ (collectProfile_descs m w _ first rest hv) (by decide),
      hnil _ _ (collectStatus_descs _) (by decide),
      hnil _ _ (collectHeal_descs m w first rest hv) (by decide),
      hnil _ _ (collectMounts_descs _) (by decide),
      hnil _ _ (collectQuota_descs m w _ first rest hv) (by decide)]
    simp [collectPeers, Outcome.ok, MustNewConstMetric, List.filter_cons]
  refine ⟨by rw [key]; rfl, fun _ => key, fun hexec => ?_⟩
  obtain ⟨hzero, herr⟩ := GetPeerStatus_exec_failure w hexec
  refine ⟨herr, ?_⟩
  rw [key, hzero]
  rfl

/-- C8 (amended), at a concrete input: a cluster with two peers. -/
theorem C8_peers_connected_witness :
    New sampleConfig = Except.ok sampleMetrics ∧
    (GetPeerStatus sampleWorld).2 = none ∧
    (Collect sampleMetrics sampleWorld).emitted.filter
        (fun o => o.desc == Desc.peersConnected) =
      [MustNewConstMetric .peersConnected .GaugeValue (.ofInt 2) []] :=
  ⟨rfl, by decide,
    (C8_peers_connected sampleConfig sampleMetrics sampleWorld rfl).2.1 (by decide)⟩

/-- C9 (as stated it fails). The scope is `_all` and the output of `gluster volume list`
does not decode to the end, so `GetVolumeList` returns an error, next to the volume `gv0`
that was decoded before the error; the heal-check set is not empty: `Collect` checks `gv0`
and sends its heal_info_files_count. -/
theorem C9_heal_check_counterexample :
    New allConfig = Except.ok allMetrics ∧
    (GetVolumeList listDecodeFailWorld).2 ≠ none ∧
    (GetVolumeList listDecodeFailWorld).1.Volume = ["gv0"] ∧
    (Collect allMetrics listDecodeFailWorld).emitted.filter
        (fun o => o.desc == Desc.healInfoFilesCount) =
      [MustNewConstMetric .healInfoFilesCount .CounterValue (.ofInt 7) ["gv0"]] :=
  ⟨rfl, by decide, by decide, by decide⟩

/-- C9 (amended). The heal_info_files_count observations that `Collect` sends are obtained
by going through the heal-check volumes in order (the configured list when its first entry
is not `_all`, otherwise the list returned by `GetVolumeList`, which is empty when
`GetVolumeList` fails in executing the gluster command) and sending, for each volume, one
observation with the returned count when `GetVolumeHealInfo` returns no error and nothing
when it returns an error; volumes after a failing one are still checked. -/
theorem C9_heal_check (cfg : Config) (m : Metrics) (w : World)
    (h : New cfg = Except.ok m) :
    (Collect m w).emitted.filter (fun o => o.desc == Desc.healInfoFilesCount) =
      ((if m.volumes.head? = some "_all" then (GetVolumeList w).1.Volume
        else m.volumes).flatMap fun vol =>
          if (GetVolumeHealInfo w vol).2 = none then
            [MustNewConstMetric .healInfoFilesCount .CounterValue
              (.ofInt (GetVolumeHealInfo w vol).1) [vol]]
          else []) ∧
    ((execGlusterCommand w ["volume", "list"]).2 ≠ none → (GetVolumeList w).1.Volume = []) := by
  obtain ⟨first, rest, hv⟩ := New_volumes cfg m h
  have hnil : ∀ (l : List Observation) (ds : List Desc), (∀ o ∈ l, o.desc ∈ ds) →
      (∀ d ∈ ds, (d == Desc.healInfoFilesCount) = false) →
      l.filter (fun o => o.desc == Desc.healInfoFilesCount) = [] :=
    fun l ds => filter_desc_nil l ds _
  have hself : ∀ (l : List Observation) (ds : List Desc), (∀ o ∈ l, o.desc ∈ ds) →
      (∀ d ∈ ds, (d == Desc.healInfoFilesCount) = true) →
      l.filter (fun o => o.desc == Desc.healInfoFilesCount) = l :=
    fun l ds => filter_desc_self l ds _
  refine ⟨?_, fun hexec => ?_⟩
  · rw [Collect_filter (fun d => d == Desc.healInfoFilesCount) m w first rest hv,
      hnil _ _ (collectUp_descs _ _) (by decide),
      hnil _ _ (collectVolumes_descs m _ first rest hv) (by decide),
      hnil _ _ (collectPeers_descs _) (by decide),
      hnil _ _ (collectProfile_descs m w _ first rest hv) (by decide),
      hnil _ _ (collectStatus_descs _) (by decide),
      hnil _ _ (collectMounts_descs _) (by decide),
      hnil _ _ (collectQuota_descs m w _ first rest hv) (by decide),
      hself _ _ (collectHeal_descs m w first rest hv) (by decide),
      collectHeal_cons m w first rest hv]
    simp only [List.nil_append, List.append_nil, Outcome.ok, ite_self, allVolumes]
    congr 1
    funext vol
    unfold healObservations
    rcases GetVolumeHealInfo w vol with ⟨n, _ | e⟩ <;> simp
  · rw [(GetVolumeList_exec_failure w hexec).1]
    rfl

/-- C9 (amended), at a concrete input: with the scope `gv1,gv0` the heal check of `gv1` fails and the
heal check of `gv0`, which follows it, gives the count 7. -/
theorem C9_heal_check_witness :
    New healConfig = Except.ok healMetrics ∧
    (GetVolumeHealInfo sampleWorld "gv1").2 ≠ none ∧
    (Collect healMetrics sampleWorld).emitted.filter
        (fun o => o.desc == Desc.healInfoFilesCount) =
      [MustNewConstMetric .healInfoFilesCount .CounterValue (.ofInt 7) ["gv0"]] :=
  ⟨rfl, by decide, (C9_heal_check healConfig healMetrics sampleWorld rfl).1.trans (by decide)⟩

/-- C10. With profiling enabled, the brick profile observations that `Collect` sends are,
for every in-scope volume of the catalogue and every brick of the profile returned for it
whose name has the hostname as a prefix, the duration, bytes read and bytes written of the
brick followed by hits and average, minimum and maximum latency of each of its file
operations; a brick whose name does not start with the hostname contributes nothing. A
brick therefore contributes 3 + 4 * (number of file operations) observations or none. With
profiling disabled no brick profile observation is sent. -/
theorem C10_profile_local_bricks (cfg : Config) (m : Metrics) (w : World)
    (h : New cfg = Except.ok m) :
    (Collect m w).emitted.filter
        (fun o => o.desc == Desc.brickDuration || o.desc == Desc.brickDataRead ||
          o.desc == Desc.brickDataWritten || o.desc == Desc.brickFopHits ||
          o.desc == Desc.brickFopLatencyAvg || o.desc == Desc.brickFopLatencyMin ||
          o.desc == Desc.brickFopLatencyMax) =
      (if w.profile then
        ((GetVolumeInfo w).1.VolInfo.Volumes.Volume.filter
          (fun v => decide (m.volumes.head? = some "_all" ∨ v.Name ∈ m.volumes))).flatMap
          fun v =>
            ((GetVolumeProfileGvInfoCumulative w v.Name).1.Brick.filter
              (fun brick => HasPrefix brick.BrickName m.hostname)).flatMap fun brick =>
                [MustNewConstMetric .brickDuration .CounterValue
                   (.ofInt brick.CumulativeStats.Duration) [v.Name, brick.BrickName],
                 MustNewConstMetric .brickDataRead .CounterValue
                   (.ofInt brick.CumulativeStats.TotalRead) [v.Name, brick.BrickName],
                 MustNewConstMetric .brickDataWritten .CounterValue
                   (.ofInt brick.CumulativeStats.TotalWrite) [v.Name, brick.BrickName]] ++
                brick.CumulativeStats.FopStats.Fop.flatMap fun fop =>
                  [MustNewConstMetric .brickFopHits .CounterValue (.ofInt fop.Hits)
                     [v.Name, brick.BrickName, fop.Name],
                   MustNewConstMetric .brickFopLatencyAvg .GaugeValue (.ofBits fop.AvgLatency)
                     [v.Name, brick.BrickName, fop.Name],
                   MustNewConstMetric .brickFopLatencyMin .GaugeValue (.ofBits fop.MinLatency)
                     [v.Name, brick.BrickName, fop.Name],
                   MustNewConstMetric .brickFopLatencyMax .GaugeValue (.ofBits fop.MaxLatency)
                     [v.Name, brick.BrickName, fop.Name]]
       else []) ∧
    (∀ (volumeName : String) (brick : Brick),
      ((∃ t : String, brick.BrickName = m.hostname ++ t) →
        (brickObservations m volumeName brick).length =
          3 + 4 * brick.CumulativeStats.FopStats.Fop.length) ∧
      ((¬ ∃ t : String, brick.BrickName = m.hostname ++ t) →
        brickObservations m volumeName brick = [])) := by
  obtain ⟨first, rest, hv⟩ := New_volumes cfg m h
  have hnil : ∀ (l : List Observation) (ds : List Desc), (∀ o ∈ l, o.desc ∈ ds) →
      (∀ d ∈ ds, (d == Desc.brickDuration || d == Desc.brickDataRead ||
          d == Desc.brickDataWritten || d == Desc.brickFopHits ||
          d == Desc.brickFopLatencyAvg || d == Desc.brickFopLatencyMin ||
          d == Desc.brickFopLatencyMax) = false) →
      l.filter (fun o => o.desc == Desc.brickDuration || o.desc == Desc.brickDataRead ||
          o.desc == Desc.brickDataWritten || o.desc == Desc.brickFopHits ||
          o.desc == Desc.brickFopLatencyAvg || o.desc == Desc.brickFopLatencyMin ||
          o.desc == Desc.brickFopLatencyMax) = [] :=
    fun l ds => filter_desc_nil l ds _
  have hself : ∀ (l : List Observation) (ds : List Desc), (∀ o ∈ l, o.desc ∈ ds) →
      (∀ d ∈ ds, (d == Desc.brickDuration || d == Desc.brickDataRead ||
          d == Desc.brickDataWritten || d == Desc.brickFopHits ||
          d == Desc.brickFopLatencyAvg || d == Desc.brickFopLatencyMin ||
          d == Desc.brickFopLatencyMax) = true) →
      l.filter (fun o => o.desc == Desc.brickDuration || o.desc == Desc.brickDataRead ||
          o.desc == Desc.brickDataWritten || o.desc == Desc.brickFopHits ||
          o.desc == Desc.brickFopLatencyAvg || o.desc == Desc.brickFopLatencyMin ||
          o.desc == Desc.brickFopLatencyMax) = l :=
    fun l ds => filter_desc_self l ds _
  refine ⟨?_, fun volumeName brick => ⟨fun hpre => ?_, fun hpre => ?_⟩⟩
  · rw [Collect_filter (fun d => d == Desc.brickDuration || d == Desc.brickDataRead ||
          d == Desc.brickDataWritten || d == Desc.brickFopHits ||
          d == Desc.brickFopLatencyAvg || d == Desc.brickFopLatencyMin ||
          d == Desc.brickFopLatencyMax) m w first rest hv,
      hnil _ _ (collectUp_descs _ _) (by decide),
      hnil _ _ (collectVolumes_descs m _ first rest hv) (by decide),
      hnil _ _ (collectPeers_descs _) (by decide),
      hnil _ _ (collectStatus_descs _) (by decide),
      hnil _ _ (collectHeal_descs m w first rest hv) (by decide),
      hnil _ _ (collectMounts_descs _) (by decide),
      hnil _ _ (collectQuota_descs m w _ first rest hv) (by decide),
      hself _ _ (collectProfile_descs m w _ first rest hv) (by decide),
      collectProfile_cons m w _ first rest hv]
    simp only [List.nil_append, List.append_nil, Outcome.ok, ite_self]
    by_cases hp : w.profile
    · simp only [hp, if_true]
      have hscope : (fun v : Volume => decide (ScopeSelects m v.Name)) =
          (fun v : Volume => decide (m.volumes.head? = some "_all" ∨ v.Name ∈ m.volumes)) := rfl
      rw [hscope]
      congr 1
      funext v
      rw [← flatMap_ite_eq_filter]
      rfl
    · simp [hp]
  · have hp := (HasPrefix_iff brick.BrickName m.hostname).2 hpre
    simp only [brickObservations, hp, if_true, List.length_append,
      length_flatMap_fopObservations, List.length_cons, List.length_nil]
  · have hp : HasPrefix brick.BrickName m.hostname = false := by
      rcases hb : HasPrefix brick.BrickName m.hostname with _ | _
      · rfl
      · exact absurd ((HasPrefix_iff _ _).1 hb) hpre
    simp [brickObservations, hp]

/-- C10, at a concrete input: on host `node1`, of the bricks `node1:/data/brick` (one file
operation) and `node2:/data/brick` of the in-scope volume `gv0`, only the first one is
reported, with 3 + 4 observations. -/
theorem C10_profile_local_bricks_witness :
    New sampleConfig = Except.ok sampleMetrics ∧
    (Collect sampleMetrics sampleWorld).emitted.filter
        (fun o => o.desc == Desc.brickDuration || o.desc == Desc.brickDataRead ||
          o.desc == Desc.brickDataWritten || o.desc == Desc.brickFopHits ||
          o.desc == Desc.brickFopLatencyAvg || o.desc == Desc.brickFopLatencyMin ||
          o.desc == Desc.brickFopLatencyMax) =
      [MustNewConstMetric .brickDuration .CounterValue (.ofInt 100) ["gv0", "node1:/data/brick"],
       MustNewConstMetric .brickDataRead .CounterValue (.ofInt 10) ["gv0", "node1:/data/brick"],
       MustNewConstMetric .brickDataWritten .CounterValue (.ofInt 20)
         ["gv0", "node1:/data/brick"],
       MustNewConstMetric .brickFopHits .CounterValue (.ofInt 5)
         ["gv0", "node1:/data/brick", "WRITE"],
       MustNewConstMetric .brickFopLatencyAvg .GaugeValue (.ofBits 0)
         ["gv0", "node1:/data/brick", "WRITE"],
       MustNewConstMetric .brickFopLatencyMin .GaugeValue (.ofBits 0)
         ["gv0", "node1:/data/brick", "WRITE"],
       MustNewConstMetric .brickFopLatencyMax .GaugeValue (.ofBits 0)
         ["gv0", "node1:/data/brick", "WRITE"]] :=
  ⟨rfl,
    (C10_profile_local_bricks sampleConfig sampleMetrics sampleWorld rfl).1.trans (by decide)⟩

/-! ## Properties of the specification, C11 to C15 -/

theorem Collect_filter_mounts (m : Metrics) (w : World) (first : String)
    (rest : List String) (hv : m.volumes = first :: rest) :
    (Collect m w).emitted.filter
        (fun o => o.desc == Desc.mountSuccessful || o.desc == Desc.volumeWriteable) =
      (collectMounts w).emitted := by
  have hnil : ∀ (l : List Observation) (ds : List Desc), (∀ o ∈ l, o.desc ∈ ds) →
      (∀ d ∈ ds, (d == Desc.mountSuccessful || d == Desc.volumeWriteable) = false) →
      l.filter (fun o => o.desc == Desc.mountSuccessful || o.desc == Desc.volumeWriteable)
        = [] :=
    fun l ds => filter_desc_nil l ds _
  have hself : ∀ (l : List Observation) (ds : List Desc), (∀ o ∈ l, o.desc ∈ ds) →
      (∀ d ∈ ds, (d == Desc.mountSuccessful || d == Desc.volumeWriteable) = true) →
      l.filter (fun o => o.desc == Desc.mountSuccessful || o.desc == Desc.volumeWriteable)
        = l :=
    fun l ds => filter_desc_self l ds _
  rw [Collect_filter (fun d => d == Desc.mountSuccessful || d == Desc.volumeWriteable) m w
      first rest hv,
    hnil _ _ (collectUp_descs _ _) (by decide),
    hnil _ _ (collectVolumes_descs m _ first rest hv) (by decide),
    hnil _ _ (collectPeers_descs _) (by decide),
    hnil _ _ (collectProfile_descs m w _ first rest hv) (by decide),
    hnil _ _ (collectStatus_descs _) (by decide),
    hnil _ _ (collectHeal_descs m w first rest hv) (by decide),
    hnil _ _ (collectQuota_descs m w _ first rest hv) (by decide),
    hself _ _ (collectMounts_descs _) (by decide)]
  simp

theorem flatMap_single_eq_map {α β : Type} (l : List α) (f : α → β) :
    l.flatMap (fun a => [f a]) = l.map f := by
  induction l with
  | nil => rfl
  | cons a l ih => simp [List.flatMap_cons, ih]

theorem ParseMountOutput_error_nil (mountBuffer : String) (r : List Mount × GoError)
    (h : ParseMountOutput mountBuffer = some r) : r.2 = none := by
  unfold ParseMountOutput at h
  split at h
  · simp only [Option.some.injEq] at h
    rw [← h]
  · cases h

theorem collectMounts_successful (w : World) :
    ∀ o ∈ (collectMounts w).emitted, o.desc = Desc.mountSuccessful → o.value = Value.ofInt 1 := by
  intro o ho hd
  unfold collectMounts at ho
  split at ho
  · simp [Outcome.ok] at ho
  · split at ho
    · simp [Outcome.panic] at ho
    · rename_i hparse
      have := ParseMountOutput_error_nil _ _ hparse
      simp at this
    · simp only [Outcome.ok, List.mem_flatMap] at ho
      obtain ⟨mt, _, ho⟩ := ho
      simp only [mountObservations, List.mem_cons, List.mem_singleton,
        List.not_mem_nil, or_false] at ho
      rcases ho with rfl | rfl
      · rfl
      · split at hd <;> simp [MustNewConstMetric] at hd

/-- C11 (the code departs from the claim). When the gluster command behind `GetVolumeInfo`
fails, `Collect` sends two liveness observations in the scrape, not one; when the fetch
succeeds it sends one. -/
theorem C11_two_liveness_observations :
    (GetVolumeInfo execFailWorld).2 ≠ none ∧
    ((Collect sampleMetrics execFailWorld).emitted.filter
      (fun o => o.desc == Desc.up)).length = 2 ∧
    (GetVolumeInfo sampleWorld).2 = none ∧
    ((Collect sampleMetrics sampleWorld).emitted.filter
      (fun o => o.desc == Desc.up)).length = 1 := by
  decide

/-- C14 (the code departs from the claim). `ParseMountOutput` does not return on every
input: the line `abcd` is longer than 3 bytes, so it is not skipped, it has a single column,
and the access to `mountColumns[2]` is out of range; the same happens on a line of four
blanks. `Collect` then ends in the panic. -/
theorem C14_parse_mount_output_panics :
    ParseMountOutput "abcd" = none ∧
    ParseMountOutput "    " = none ∧
    ParseMountOutput "/dev/x on /mnt/data type fuse.glusterfs (rw)\nabcd\n" = none ∧
    (Collect sampleMetrics badMountWorld).panicked = true := by
  decide

/-- C15. Whenever `ParseMountOutput` returns, the error it returns is nil; so the branch of
`Collect` that sends mount_successful with value 0 is never taken, and every
mount_successful observation that `Collect` sends has value 1. -/
theorem C15_mount_successful_is_one (cfg : Config) (m : Metrics) (w : World)
    (h : New cfg = Except.ok m) :
    (∀ (mountBuffer : String) (r : List Mount × GoError),
      ParseMountOutput mountBuffer = some r → r.2 = none) ∧
    (∀ o ∈ (Collect m w).emitted, o.desc = Desc.mountSuccessful → o.value = Value.ofInt 1) ∧
    (Collect m w).emitted.filter (fun o => o.desc == Desc.mountSuccessful) =
      if (GetMountCheck w).2 = none then
        match ParseMountOutput (GetMountCheck w).1 with
        | some (mounts, _) =>
          mounts.map fun mount =>
            MustNewConstMetric .mountSuccessful .GaugeValue (.ofInt 1)
              [mount.Volume, mount.MountPoint]
        | none => []
      else [] := by
  obtain ⟨first, rest, hv⟩ := New_volumes cfg m h
  have hmem : ∀ o ∈ (Collect m w).emitted, o.desc = Desc.mountSuccessful →
      o ∈ (collectMounts w).emitted := by
    intro o ho hd
    rw [← Collect_filter_mounts m w first rest hv, List.mem_filter]
    exact ⟨ho, by simp [hd]⟩
  refine ⟨ParseMountOutput_error_nil, fun o ho hd => ?_, ?_⟩
  · exact collectMounts_successful w o (hmem o ho hd) hd
  · have hsub : (Collect m w).emitted.filter (fun o => o.desc == Desc.mountSuccessful) =
        (collectMounts w).emitted.filter (fun o => o.desc == Desc.mountSuccessful) := by
      rw [← Collect_filter_mounts m w first rest hv, List.filter_filter]
      congr 1
      funext o
      by_cases hd : o.desc = Desc.mountSuccessful <;> simp [hd]
    rw [hsub]
    unfold collectMounts
    rcases hg : GetMountCheck w with ⟨buf, _ | e⟩
    · simp only
      rcases hp : ParseMountOutput buf with _ | ⟨mounts, _ | e⟩
      · simp [Outcome.panic]
      · simp only [Outcome.ok, if_true, List.filter_flatMap]
        have hone : (fun mount => (mountObservations w mount).filter
            (fun o => o.desc == Desc.mountSuccessful)) =
            (fun mount => [MustNewConstMetric .mountSuccessful .GaugeValue (.ofInt 1)
              [mount.Volume, mount.MountPoint]]) := by
          funext mount
          unfold mountObservations
          split <;> simp [MustNewConstMetric, List.filter_cons]
        rw [hone]
        exact flatMap_single_eq_map _ _
      · have := ParseMountOutput_error_nil _ _ hp
        simp at this
    · simp [Outcome.ok]

/-- C15, at a concrete input: one mounted volume, reported with mount_successful 1. -/
theorem C15_mount_successful_is_one_witness :
    New sampleConfig = Except.ok sampleMetrics ∧
    (Collect sampleMetrics sampleWorld).emitted.filter
        (fun o => o.desc == Desc.mountSuccessful) =
      [MustNewConstMetric .mountSuccessful .GaugeValue (.ofInt 1) ["node1:/gv0", "/mnt/gv0"]] :=
  ⟨rfl,
    (C15_mount_successful_is_one sampleConfig sampleMetrics sampleWorld rfl).2.2.trans
      (by decide)⟩

theorem GetVolumeStatusAllDetail_exec_failure (w : World)
    (h : (execGlusterCommand w ["volume", "status", "all", "detail"]).2 ≠ none) :
    (GetVolumeStatusAllDetail w).1 = VolumeStatusXML.zero ∧
      (GetVolumeStatusAllDetail w).2 ≠ none := by
  unfold GetVolumeStatusAllDetail
  rcases he : execGlusterCommand w ["volume", "status", "all", "detail"] with ⟨buf, _ | e⟩
  · rw [he] at h; exact absurd rfl h
  · simp

theorem GetVolumeProfile_exec_failure (w : World) (volumeName : String)
    (h : (execGlusterCommand w
      ["volume", "profile", volumeName, "info", "cumulative"]).2 ≠ none) :
    (GetVolumeProfileGvInfoCumulative w volumeName).1 = VolProfile.zero ∧
      (GetVolumeProfileGvInfoCumulative w volumeName).2 ≠ none := by
  unfold GetVolumeProfileGvInfoCumulative
  rcases he : execGlusterCommand w
    ["volume", "profile", volumeName, "info", "cumulative"] with ⟨buf, _ | e⟩
  · rw [he] at h; exact absurd rfl h
  · simp

theorem brickObservations_volume_label (m : Metrics) (volumeName : String) (brick : Brick) :
    ∀ o ∈ brickObservations m volumeName brick, o.labelValues.head? = some volumeName := by
  intro o ho
  unfold brickObservations at ho
  split at ho
  · simp only [List.mem_append, List.mem_flatMap] at ho
    rcases ho with ho | ⟨fop, _, ho⟩
    · simp [MustNewConstMetric] at ho
      rcases ho with rfl | rfl | rfl <;> rfl
    · simp [fopObservations, MustNewConstMetric] at ho
      rcases ho with rfl | rfl | rfl | rfl <;> rfl
  · simp at ho

theorem Collect_filter_status (m : Metrics) (w : World) (first : String)
    (rest : List String) (hv : m.volumes = first :: rest) :
    (Collect m w).emitted.filter
        (fun o => o.desc == Desc.nodeSizeTotalBytes || o.desc == Desc.nodeSizeFreeBytes ||
          o.desc == Desc.nodeInodesTotal || o.desc == Desc.nodeInodesFree) =
      (collectStatus w).emitted := by
  have hnil : ∀ (l : List Observation) (ds : List Desc), (∀ o ∈ l, o.desc ∈ ds) →
      (∀ d ∈ ds, (d == Desc.nodeSizeTotalBytes || d == Desc.nodeSizeFreeBytes ||
          d == Desc.nodeInodesTotal || d == Desc.nodeInodesFree) = false) →
      l.filter (fun o => o.desc == Desc.nodeSizeTotalBytes ||
          o.desc == Desc.nodeSizeFreeBytes || o.desc == Desc.nodeInodesTotal ||
          o.desc == Desc.nodeInodesFree) = [] :=
    fun l ds => filter_desc_nil l ds _
  have hself : ∀ (l : List Observation) (ds : List Desc), (∀ o ∈ l, o.desc ∈ ds) →
      (∀ d ∈ ds, (d == Desc.nodeSizeTotalBytes || d == Desc.nodeSizeFreeBytes ||
          d == Desc.nodeInodesTotal || d == Desc.nodeInodesFree) = true) →
      l.filter (fun o => o.desc == Desc.nodeSizeTotalBytes ||
          o.desc == Desc.nodeSizeFreeBytes || o.desc == Desc.nodeInodesTotal ||
          o.desc == Desc.nodeInodesFree) = l :=
    fun l ds => filter_desc_self l ds _
  rw [Collect_filter (fun d => d == Desc.nodeSizeTotalBytes || d == Desc.nodeSizeFreeBytes ||
          d == Desc.nodeInodesTotal || d == Desc.nodeInodesFree) m w first rest hv,
    hnil _ _ (collectUp_descs _ _) (by decide),
    hnil _ _ (collectVolumes_descs m _ first rest hv) (by decide),
    hnil _ _ (collectPeers_descs _) (by decide),
    hnil _ _ (collectProfile_descs m w _ first rest hv) (by decide),
    hnil _ _ (collectHeal_descs m w first rest hv) (by decide),
    hnil _ _ (collectMounts_descs _) (by decide),
    hnil _ _ (collectQuota_descs m w _ first rest hv) (by decide),
    hself _ _ (collectStatus_descs _) (by decide)]
  simp

theorem Collect_filter_profile (m : Metrics) (w : World) (first : String)
    (rest : List String) (hv : m.volumes = first :: rest) :
    (Collect m w).emitted.filter
        (fun o => o.desc == Desc.brickDuration || o.desc == Desc.brickDataRead ||
          o.desc == Desc.brickDataWritten || o.desc == Desc.brickFopHits ||
          o.desc == Desc.brickFopLatencyAvg || o.desc == Desc.brickFopLatencyMin ||
          o.desc == Desc.brickFopLatencyMax) =
      (collectProfile m w (GetVolumeInfo w).1).emitted := by
  have hnil : ∀ (l : List Observation) (ds : List Desc), (∀ o ∈ l, o.desc ∈ ds) →
      (∀ d ∈ ds, (d == Desc.brickDuration || d == Desc.brickDataRead ||
          d == Desc.brickDataWritten || d == Desc.brickFopHits ||
          d == Desc.brickFopLatencyAvg || d == Desc.brickFopLatencyMin ||
          d == Desc.brickFopLatencyMax) = false) →
      l.filter (fun o => o.desc == Desc.brickDuration || o.desc == Desc.brickDataRead ||
          o.desc == Desc.brickDataWritten || o.desc == Desc.brickFopHits ||
          o.desc == Desc.brickFopLatencyAvg || o.desc == Desc.brickFopLatencyMin ||
          o.desc == Desc.brickFopLatencyMax) = [] :=
    fun l ds => filter_desc_nil l ds _
  have hself : ∀ (l : List Observation) (ds : List Desc), (∀ o ∈ l, o.desc ∈ ds) →
      (∀ d ∈ ds, (d == Desc.brickDuration || d == Desc.brickDataRead ||
          d == Desc.brickDataWritten || d == Desc.brickFopHits ||
          d == Desc.brickFopLatencyAvg || d == Desc.brickFopLatencyMin ||
          d == Desc.brickFopLatencyMax) = true) →
      l.filter (fun o => o.desc == Desc.brickDuration || o.desc == Desc.brickDataRead ||
          o.desc == Desc.brickDataWritten || o.desc == Desc.brickFopHits ||
          o.desc == Desc.brickFopLatencyAvg || o.desc == Desc.brickFopLatencyMin ||
          o.desc == Desc.brickFopLatencyMax) = l :=
    fun l ds => filter_desc_self l ds _
  rw [Collect_filter (fun d => d == Desc.brickDuration || d == Desc.brickDataRead ||
          d == Desc.brickDataWritten || d == Desc.brickFopHits ||
          d == Desc.brickFopLatencyAvg || d == Desc.brickFopLatencyMin ||
          d == Desc.brickFopLatencyMax) m w first rest hv,
    hnil _ _ (collectUp_descs _ _) (by decide),
    hnil _ _ (collectVolumes_descs m _ first rest hv) (by decide),
    hnil _ _ (collectPeers_descs _) (by decide),
    hnil _ _ (collectStatus_descs _) (by decide),
    hnil _ _ (collectHeal_descs m w first rest hv) (by decide),
    hnil _ _ (collectMounts_descs _) (by decide),
    hnil _ _ (collectQuota_descs m w _ first rest hv) (by decide),
    hself _ _ (collectProfile_descs m w _ first rest hv) (by decide)]
  simp

/-- C12 (as stated it fails). The outputs of `gluster volume status all detail` and of the
profile of `gv0` do not decode, so `GetVolumeStatusAllDetail` and
`GetVolumeProfileGvInfoCumulative` return an error next to the part of the record decoded
before the error; `Collect` sends the node and brick profile observations of that part. -/
theorem C12_failed_decode_counterexample :
    (GetVolumeStatusAllDetail detailDecodeFailWorld).2 ≠ none ∧
    (Collect sampleMetrics detailDecodeFailWorld).emitted.filter
        (fun o => o.desc == Desc.nodeSizeTotalBytes || o.desc == Desc.nodeSizeFreeBytes ||
          o.desc == Desc.nodeInodesTotal || o.desc == Desc.nodeInodesFree) =
      [MustNewConstMetric .nodeSizeTotalBytes .CounterValue (.ofInt 1000)
         ["node1", "/data/brick", "gv0"],
       MustNewConstMetric .nodeSizeFreeBytes .GaugeValue (.ofInt 400)
         ["node1", "/data/brick", "gv0"],
       MustNewConstMetric .nodeInodesTotal .CounterValue (.ofInt 64)
         ["node1", "/data/brick", "gv0"],
       MustNewConstMetric .nodeInodesFree .GaugeValue (.ofInt 32)
         ["node1", "/data/brick", "gv0"]] ∧
    (GetVolumeProfileGvInfoCumulative detailDecodeFailWorld "gv0").2 ≠ none ∧
    (Collect sampleMetrics detailDecodeFailWorld).emitted.filter
        (fun o => o.desc == Desc.brickDuration || o.desc == Desc.brickDataRead ||
          o.desc == Desc.brickDataWritten || o.desc == Desc.brickFopHits ||
          o.desc == Desc.brickFopLatencyAvg || o.desc == Desc.brickFopLatencyMin ||
          o.desc == Desc.brickFopLatencyMax) =
      [MustNewConstMetric .brickDuration .CounterValue (.ofInt 100)
         ["gv0", "node1:/data/brick"],
       MustNewConstMetric .brickDataRead .CounterValue (.ofInt 10)
         ["gv0", "node1:/data/brick"],
       MustNewConstMetric .brickDataWritten .CounterValue (.ofInt 20)
         ["gv0", "node1:/data/brick"]] := by
  decide

/-- C12 (amended). Whenever `GetVolumeStatusAllDetail` fails in executing the gluster
command, it returns an error and `Collect` sends no node_size or node_inodes observation;
whenever `GetVolumeProfileGvInfoCumulative` fails in executing the gluster command for a
volume, it returns an error and `Collect` sends no brick profile observation for that
volume. -/
theorem C12_failed_command_contributes_nothing (cfg : Config) (m : Metrics) (w : World)
    (h : New cfg = Except.ok m) :
    ((execGlusterCommand w ["volume", "status", "all", "detail"]).2 ≠ none →
      (GetVolumeStatusAllDetail w).2 ≠ none ∧
      (Collect m w).emitted.filter
        (fun o => o.desc == Desc.nodeSizeTotalBytes || o.desc == Desc.nodeSizeFreeBytes ||
          o.desc == Desc.nodeInodesTotal || o.desc == Desc.nodeInodesFree) = []) ∧
    (∀ volumeName : String,
      (execGlusterCommand w
        ["volume", "profile", volumeName, "info", "cumulative"]).2 ≠ none →
      (GetVolumeProfileGvInfoCumulative w volumeName).2 ≠ none ∧
      (Collect m w).emitted.filter
        (fun o => (o.desc == Desc.brickDuration || o.desc == Desc.brickDataRead ||
          o.desc == Desc.brickDataWritten || o.desc == Desc.brickFopHits ||
          o.desc == Desc.brickFopLatencyAvg || o.desc == Desc.brickFopLatencyMin ||
          o.desc == Desc.brickFopLatencyMax) &&
          o.labelValues.head? == some volumeName) = []) := by
  obtain ⟨first, rest, hv⟩ := New_volumes cfg m h
  refine ⟨fun hexec => ?_, fun volumeName hexec => ?_⟩
  · obtain ⟨hzero, herr⟩ := GetVolumeStatusAllDetail_exec_failure w hexec
    refine ⟨herr, ?_⟩
    rw [Collect_filter_status m w first rest hv]
    simp [collectStatus, hzero, VolumeStatusXML.zero, Outcome.ok]
  · obtain ⟨hzero, herr⟩ := GetVolumeProfile_exec_failure w volumeName hexec
    refine ⟨herr, ?_⟩
    rw [List.filter_eq_nil_iff]
    intro o ho hcond
    simp only [Bool.and_eq_true] at hcond
    obtain ⟨hdesc, hname⟩ := hcond
    have hmem : o ∈ (collectProfile m w (GetVolumeInfo w).1).emitted := by
      rw [← Collect_filter_profile m w first rest hv, List.mem_filter]
      exact ⟨ho, hdesc⟩
    rw [collectProfile_cons m w _ first rest hv] at hmem
    simp only [Outcome.ok] at hmem
    split at hmem
    · simp only [List.mem_flatMap] at hmem
      obtain ⟨v, _, b, hb, hob⟩ := hmem
      have hlabel := brickObservations_volume_label m v.Name b o hob
      rw [hlabel] at hname
      simp only [beq_iff_eq, Option.some.injEq] at hname
      rw [hname, hzero] at hb
      simp [VolProfile.zero] at hb
    · simp at hmem

/-- C12 (amended), at a concrete input: the gluster binary fails on
`volume status all detail` and on the profile of the in-scope volume `gv0`. -/
theorem C12_failed_command_contributes_nothing_witness :
    New sampleConfig = Except.ok sampleMetrics ∧
    (execGlusterCommand detailExecFailWorld ["volume", "status", "all", "detail"]).2 ≠ none ∧
    (Collect sampleMetrics detailExecFailWorld).emitted.filter
        (fun o => o.desc == Desc.nodeSizeTotalBytes || o.desc == Desc.nodeSizeFreeBytes ||
          o.desc == Desc.nodeInodesTotal || o.desc == Desc.nodeInodesFree) = [] ∧
    (execGlusterCommand detailExecFailWorld
      ["volume", "profile", "gv0", "info", "cumulative"]).2 ≠ none ∧
    (Collect sampleMetrics detailExecFailWorld).emitted.filter
        (fun o => (o.desc == Desc.brickDuration || o.desc == Desc.brickDataRead ||
          o.desc == Desc.brickDataWritten || o.desc == Desc.brickFopHits ||
          o.desc == Desc.brickFopLatencyAvg || o.desc == Desc.brickFopLatencyMin ||
          o.desc == Desc.brickFopLatencyMax) &&
          o.labelValues.head? == some "gv0") = [] :=
  ⟨rfl, by decide,
    ((C12_failed_command_contributes_nothing sampleConfig sampleMetrics detailExecFailWorld
      rfl).1 (by decide)).2,
    by decide,
    ((C12_failed_command_contributes_nothing sampleConfig sampleMetrics detailExecFailWorld
      rfl).2 "gv0" (by decide)).2⟩

theorem columns_tokens_spec (lead trail first second third : String) (more : List String)
    (h : (ColumnLine.columns lead trail first second third more).wellFormed = true) :
    ∀ l ∈ (first :: second :: third :: more).map String.data,
      l ≠ [] ∧ ∀ c ∈ l, isSpace c = false := by
  simp only [ColumnLine.wellFormed, Bool.and_eq_true, List.all_eq_true] at h
  obtain ⟨⟨⟨⟨⟨_, _⟩, h1⟩, h2⟩, h3⟩, hm⟩ := h
  intro l hl
  simp only [List.map_cons, List.mem_cons, List.mem_map] at hl
  rcases hl with rfl | rfl | rfl | ⟨t, ht, rfl⟩
  · exact isToken_spec _ h1
  · exact isToken_spec _ h2
  · exact isToken_spec _ h3
  · exact isToken_spec _ (hm t ht)

theorem TrimSpace_padded (lead trail : List Char) (t : List Char) (ts : List (List Char))
    (hlead : ∀ c ∈ lead, isSpace c = true) (htrail : ∀ c ∈ trail, isSpace c = true)
    (htok : ∀ l ∈ t :: ts, l ≠ [] ∧ ∀ c ∈ l, isSpace c = false) :
    TrimSpace ⟨lead ++ [' '].intercalate (t :: ts) ++ trail⟩ =
      ⟨[' '].intercalate (t :: ts)⟩ := by
  obtain ⟨⟨c, rest, hhead, hc⟩, ⟨init, d, hlast, hd⟩⟩ := intercalate_ends ' ' isSpace t ts htok
  unfold TrimSpace
  simp only
  congr 1
  rw [List.append_assoc, dropWhile_append_of_all isSpace _ _ hlead,
    hhead, List.cons_append, List.dropWhile_cons_of_neg (by simp [hc]), ← List.cons_append,
    ← hhead, rdropWhile_append_of_all isSpace _ _ htrail, hlast,
    List.rdropWhile_concat]
  simp [hd]

theorem fields_skip_padding (l r : List Char) (h : ∀ c ∈ l, isSpace c = true) :
    ((l ++ r).splitOnP isSpace).filter (fun t => !t.isEmpty) =
      (r.splitOnP isSpace).filter (fun t => !t.isEmpty) := by
  induction l with
  | nil => rfl
  | cons a l ih =>
    have ha := h a (List.mem_cons_self _ _)
    rw [List.cons_append, List.splitOnP_cons, if_pos ha, List.filter_cons]
    simp only [List.isEmpty_nil, Bool.not_true, Bool.false_eq_true, if_false]
    exact ih (fun c hc => h c (List.mem_cons_of_mem _ hc))

theorem fields_padding (l : List Char) (h : ∀ c ∈ l, isSpace c = true) :
    (l.splitOnP isSpace).filter (fun t => !t.isEmpty) = [] := by
  have := fields_skip_padding l [] h
  rw [List.append_nil] at this
  rw [this]
  rfl

theorem fields_token_sep (t r : List Char) (sep : Char) (hne : t ≠ [])
    (ht : ∀ c ∈ t, isSpace c = false) (hsep : isSpace sep = true) :
    ((t ++ sep :: r).splitOnP isSpace).filter (fun x => !x.isEmpty) =
      t :: (r.splitOnP isSpace).filter (fun x => !x.isEmpty) := by
  rw [List.splitOnP_first isSpace t (fun x hx => by simp [ht x hx]) sep hsep r,
    List.filter_cons]
  cases t with
  | nil => exact absurd rfl hne
  | cons a t => simp

theorem fields_token_padding (t trail : List Char) (hne : t ≠ [])
    (ht : ∀ c ∈ t, isSpace c = false) (htrail : ∀ c ∈ trail, isSpace c = true) :
    ((t ++ trail).splitOnP isSpace).filter (fun x => !x.isEmpty) = [t] := by
  cases trail with
  | nil =>
    rw [List.append_nil, List.splitOnP_eq_single isSpace t (fun x hx => by simp [ht x hx])]
    cases t with
    | nil => exact absurd rfl hne
    | cons a t => simp
  | cons c tr =>
    rw [fields_token_sep t tr c hne ht (htrail c (List.mem_cons_self _ _)),
      fields_padding tr (fun x hx => htrail x (List.mem_cons_of_mem _ hx))]

theorem fields_tokens (t : List Char) (ts : List (List Char)) (trail : List Char)
    (htok : ∀ l ∈ t :: ts, l ≠ [] ∧ ∀ c ∈ l, isSpace c = false)
    (htrail : ∀ c ∈ trail, isSpace c = true) :
    (([' '].intercalate (t :: ts) ++ trail).splitOnP isSpace).filter (fun x => !x.isEmpty) =
      t :: ts := by
  induction ts generalizing t with
  | nil =>
    rw [intercalate_single]
    obtain ⟨hne, ht⟩ := htok t (List.mem_cons_self _ _)
    exact fields_token_padding t trail hne ht htrail
  | cons b l ih =>
    obtain ⟨hne, ht⟩ := htok t (List.mem_cons_self _ _)
    rw [intercalate_cons_cons, List.append_assoc, List.cons_append,
      fields_token_sep t _ ' ' hne ht (by decide),
      ih b (fun x hx => htok x (List.mem_cons_of_mem _ hx))]

theorem Fields_columns (lead trail first second third : String) (more : List String)
    (h : (ColumnLine.columns lead trail first second third more).wellFormed = true) :
    Fields ⟨(ColumnLine.columns lead trail first second third more).text⟩ =
      first :: second :: third :: more := by
  have htok := columns_tokens_spec lead trail first second third more h
  simp only [ColumnLine.wellFormed, Bool.and_eq_true] at h
  obtain ⟨⟨⟨⟨⟨hl, htr⟩, _⟩, _⟩, _⟩, _⟩ := h
  have hlead := isPadding_spec _ hl
  have htrail := isPadding_spec _ htr
  unfold Fields ColumnLine.text
  simp only [List.map_cons] at htok ⊢
  rw [List.append_assoc, fields_skip_padding _ _ (fun c hc => (hlead c hc).1),
    fields_tokens _ _ _ htok (fun c hc => (htrail c hc).1)]
  simp only [List.map_cons, List.map_map]
  have hid : (String.mk ∘ String.data) = id := by
    funext t
    rfl
  rw [hid, List.map_id]

theorem len_columns (lead trail first second third : String) (more : List String)
    (h : (ColumnLine.columns lead trail first second third more).wellFormed = true) :
    len ⟨(ColumnLine.columns lead trail first second third more).text⟩ > 3 := by
  have htok := columns_tokens_spec lead trail first second third more h
  have h1 : 0 < first.data.length := List.length_pos.2 (htok first.data (by simp)).1
  have h2 : 0 < second.data.length := List.length_pos.2 (htok second.data (by simp)).1
  have h3 : 0 < third.data.length := List.length_pos.2 (htok third.data (by simp)).1
  have hlen := length_le_utf8ByteSize
    (ColumnLine.columns lead trail first second third more).text
  unfold len
  have h4 : first.data.length + 1 + (second.data.length + 1 + third.data.length) ≤
      (ColumnLine.columns lead trail first second third more).text.length := by
    unfold ColumnLine.text
    cases more with
    | nil =>
      simp only [List.map_cons, List.map_nil, intercalate_cons_cons, intercalate_single,
        List.length_append, List.length_cons]
      omega
    | cons x xs =>
      simp only [List.map_cons, intercalate_cons_cons, List.length_append, List.length_cons]
      omega
  omega

theorem columns_no_newline (line : ColumnLine) (h : line.wellFormed = true) :
    '\n' ∉ line.text := by
  cases line with
  | empty => simp [ColumnLine.text]
  | columns lead trail first second third more =>
    have htok := columns_tokens_spec lead trail first second third more h
    simp only [ColumnLine.wellFormed, Bool.and_eq_true] at h
    obtain ⟨⟨⟨⟨⟨hl, htr⟩, _⟩, _⟩, _⟩, _⟩ := h
    have hlead := isPadding_spec _ hl
    have htrail := isPadding_spec _ htr
    intro hmem
    unfold ColumnLine.text at hmem
    simp only [List.mem_append] at hmem
    rcases hmem with (hmem | hmem) | hmem
    · exact (hlead _ hmem).2 rfl
    · rcases mem_intercalate _ _ _ hmem with hsep | ⟨l, hl, hc⟩
      · revert hsep
        decide
      · have := (htok l hl).2 _ hc
        revert this
        decide
    · exact (htrail _ hmem).2 rfl

theorem parseMountRows_columns (lines : List ColumnLine) (acc : List Mount)
    (h : ∀ line ∈ lines, line.wellFormed = true) :
    parseMountRows (lines.map fun line => ⟨line.text⟩) acc =
      some (acc ++ lines.filterMap ColumnLine.mount?) := by
  induction lines generalizing acc with
  | nil => simp [parseMountRows]
  | cons line lines ih =>
    have hrest : ∀ l ∈ lines, l.wellFormed = true := fun l hl => h l (List.mem_cons_of_mem _ hl)
    have hline := h line (List.mem_cons_self _ _)
    cases line with
    | empty =>
      have hlen : ¬ len ⟨ColumnLine.empty.text⟩ > 3 := by decide
      simp only [List.map_cons, parseMountRows, hlen, if_false]
      rw [ih _ hrest]
      simp [ColumnLine.mount?]
    | columns lead trail first second third more =>
      have hlen := len_columns lead trail first second third more hline
      have htok := columns_tokens_spec lead trail first second third more hline
      have hwf := hline
      simp only [ColumnLine.wellFormed, Bool.and_eq_true] at hwf
      obtain ⟨⟨⟨⟨⟨hl, htr⟩, _⟩, _⟩, _⟩, _⟩ := hwf
      have htrim : TrimSpace ⟨(ColumnLine.columns lead trail first second third more).text⟩ =
          ⟨[' '].intercalate ((first :: second :: third :: more).map String.data)⟩ := by
        unfold ColumnLine.text
        rw [List.map_cons] at htok ⊢
        exact TrimSpace_padded _ _ _ _ (fun c hc => (isPadding_spec _ hl c hc).1)
          (fun c hc => (isPadding_spec _ htr c hc).1) htok
      simp only [List.map_cons, parseMountRows, hlen, if_true]
      rw [htrim, Split_tokens (first :: second :: third :: more) (by simp) htok]
      simp only [List.getElem?_cons_succ, List.getElem?_cons_zero]
      rw [ih _ hrest]
      simp [ColumnLine.mount?]

theorem Split_columnText (lines : List ColumnLine) (hne : lines ≠ [])
    (h : ∀ line ∈ lines, line.wellFormed = true) :
    Split (columnText lines) '\n' = lines.map fun line => ⟨line.text⟩ := by
  unfold Split columnText
  rw [List.splitOn_intercalate _ '\n' _ (by simpa using hne)]
  · rw [List.map_map]
    rfl
  · intro l hl
    simp only [List.mem_map] at hl
    obtain ⟨line, hline, rfl⟩ := hl
    exact columns_no_newline line (h line hline)

theorem ParseMountOutput_columnText (lines : List ColumnLine)
    (h : ∀ line ∈ lines, line.wellFormed = true) :
    ParseMountOutput (columnText lines) = some (lines.filterMap ColumnLine.mount?, none) ∧
    (lines ≠ [] → Split (columnText lines) '\n' = lines.map fun line => ⟨line.text⟩) ∧
    (∀ line ∈ lines, ∀ mount : Mount, line.mount? = some mount →
      (Fields ⟨line.text⟩)[0]? = some mount.Volume ∧
      (Fields ⟨line.text⟩)[2]? = some mount.MountPoint) := by
  refine ⟨?_, fun hne => Split_columnText lines hne h, ?_⟩
  · unfold ParseMountOutput
    by_cases hne : lines = []
    · subst hne
      rfl
    · rw [Split_columnText lines hne h, parseMountRows_columns lines [] h]
      rfl
  · intro line hline mount hm
    cases line with
    | empty => simp [ColumnLine.mount?] at hm
    | columns lead trail first second third more =>
      simp only [ColumnLine.mount?, Option.some.injEq] at hm
      subst hm
      rw [Fields_columns lead trail first second third more (h _ hline)]
      simp

theorem ParseMountOutput_columnText_example :
    (∀ line ∈ columnLines, line.wellFormed = true) ∧
    columnText columnLines =
      "\tnode1:/gv0 on /mnt/gv0 type fuse.glusterfs (rw) \n\na b c\r" ∧
    ParseMountOutput (columnText columnLines) =
      some ([{ MountPoint := "/mnt/gv0", Volume := "node1:/gv0" },
             { MountPoint := "c", Volume := "a" }], none) :=
  ⟨by decide, by decide, (ParseMountOutput_columnText columnLines (by decide)).1⟩

theorem parseMountRows_acc (rows : List String) (acc : List Mount) :
    parseMountRows rows acc = (parseMountRows rows []).map (fun mounts => acc ++ mounts) := by
  induction rows generalizing acc with
  | nil => simp [parseMountRows]
  | cons row rows ih =>
    simp only [parseMountRows, List.nil_append]
    split
    · split
      · rename_i mountPoint volume _ _
        rw [ih (acc ++ [Mount.mk mountPoint volume]), ih [Mount.mk mountPoint volume]]
        simp [Option.map_map, Function.comp_def]
      · rfl
    · exact ih acc

theorem parseMountRows_append (pre rows : List String) (acc : List Mount) :
    parseMountRows (pre ++ rows) acc =
      (parseMountRows pre acc).bind (fun mounts => parseMountRows rows mounts) := by
  induction pre generalizing acc with
  | nil => simp [parseMountRows]
  | cons row pre ih =>
    simp only [List.cons_append, parseMountRows]
    split
    · split
      · exact ih _
      · rfl
    · exact ih _

theorem parseMountRows_columns_row (lead trail first second third : String)
    (more : List String)
    (hline : (ColumnLine.columns lead trail first second third more).wellFormed = true)
    (rows : List String) (mounts : List Mount) :
    parseMountRows (⟨(ColumnLine.columns lead trail first second third more).text⟩ :: rows)
        mounts =
      parseMountRows rows (mounts ++ [{ MountPoint := third, Volume := first }]) := by
  have hlen := len_columns lead trail first second third more hline
  have htok := columns_tokens_spec lead trail first second third more hline
  have hwf := hline
  simp only [ColumnLine.wellFormed, Bool.and_eq_true] at hwf
  obtain ⟨⟨⟨⟨⟨hl, htr⟩, _⟩, _⟩, _⟩, _⟩ := hwf
  have htrim : TrimSpace ⟨(ColumnLine.columns lead trail first second third more).text⟩ =
      ⟨[' '].intercalate ((first :: second :: third :: more).map String.data)⟩ := by
    unfold ColumnLine.text
    rw [List.map_cons] at htok ⊢
    exact TrimSpace_padded _ _ _ _ (fun c hc => (isPadding_spec _ hl c hc).1)
      (fun c hc => (isPadding_spec _ htr c hc).1) htok
  simp only [parseMountRows, hlen, if_true]
  rw [htrim, Split_tokens (first :: second :: third :: more) (by simp) htok]
  simp only [List.getElem?_cons_succ, List.getElem?_cons_zero]

theorem parseMountRows_around (lead trail first second third : String)
    (more : List String)
    (hline : (ColumnLine.columns lead trail first second third more).wellFormed = true)
    (pre post : List String) :
    parseMountRows
        (pre ++ ⟨(ColumnLine.columns lead trail first second third more).text⟩ :: post) [] =
      (parseMountRows pre []).bind fun before =>
        (parseMountRows post []).map fun after =>
          before ++ { MountPoint := third, Volume := first } :: after := by
  rw [parseMountRows_append]
  congr 1
  funext before
  rw [parseMountRows_columns_row lead trail first second third more hline, parseMountRows_acc]
  congr 1
  funext after
  simp

/-- C13 (as stated it fails). The line `node1:/gv0  on /mnt/gv0 type fuse.glusterfs`, with a
run of two blanks after the first token, has `/mnt/gv0` as its third whitespace-delimited
token, but the `Mount` gets `MountPoint` `on`: the two blanks enclose an empty column. On the
line where a tab follows the first token, the first column is `node1:/gv0`, the tab and
`on` together, and the `MountPoint` is `type`. -/
theorem C13_whitespace_split_counterexample :
    Fields "node1:/gv0  on /mnt/gv0 type fuse.glusterfs" =
      ["node1:/gv0", "on", "/mnt/gv0", "type", "fuse.glusterfs"] ∧
    ParseMountOutput "node1:/gv0  on /mnt/gv0 type fuse.glusterfs" =
      some ([{ MountPoint := "on", Volume := "node1:/gv0" }], none) ∧
    Fields "node1:/gv0\ton /mnt/gv0 type fuse.glusterfs" =
      ["node1:/gv0", "on", "/mnt/gv0", "type", "fuse.glusterfs"] ∧
    ParseMountOutput "node1:/gv0\ton /mnt/gv0 type fuse.glusterfs" =
      some ([{ MountPoint := "type", Volume := "node1:/gv0\ton" }], none) := by
  decide

/-- C13 (amended). `ParseMountOutput` splits each trimmed line at every single blank: for
every line, of any input, made of at least three tokens free of white space and separated by
single blanks (white space other than a line break allowed before and after), the loop
appends one `Mount` whose `Volume` is the first whitespace-delimited token of the line and
whose `MountPoint` is the third, and goes on with the following lines; so whenever
`ParseMountOutput` returns, its result holds that `Mount` between the mounts of the lines
before and the mounts of the lines after, and it does return whenever the other lines do not
make it panic. -/
theorem C13_single_blank_split (mountBuffer : String) (pre post : List String)
    (lead trail first second third : String) (more : List String)
    (hline : (ColumnLine.columns lead trail first second third more).wellFormed = true)
    (hrows : Split mountBuffer '\n' =
      pre ++ ⟨(ColumnLine.columns lead trail first second third more).text⟩ :: post) :
    (∀ (rows : List String) (mounts : List Mount),
      parseMountRows
          (⟨(ColumnLine.columns lead trail first second third more).text⟩ :: rows) mounts =
        parseMountRows rows (mounts ++ [{ MountPoint := third, Volume := first }])) ∧
    (∀ r : List Mount × GoError, ParseMountOutput mountBuffer = some r →
      ∃ before after : List Mount,
        parseMountRows pre [] = some before ∧ parseMountRows post [] = some after ∧
        r = (before ++ { MountPoint := third, Volume := first } :: after, none)) ∧
    (∀ before after : List Mount,
      parseMountRows pre [] = some before → parseMountRows post [] = some after →
      ParseMountOutput mountBuffer =
        some (before ++ { MountPoint := third, Volume := first } :: after, none)) ∧
    (Fields ⟨(ColumnLine.columns lead trail first second third more).text⟩)[0]? =
      some first ∧
    (Fields ⟨(ColumnLine.columns lead trail first second third more).text⟩)[2]? =
      some third := by
  have haround := parseMountRows_around lead trail first second third more hline pre post
  refine ⟨parseMountRows_columns_row lead trail first second third more hline, ?_, ?_, ?_, ?_⟩
  · intro r hr
    unfold ParseMountOutput at hr
    rw [hrows, haround] at hr
    rcases hpre : parseMountRows pre [] with _ | before
    · rw [hpre] at hr
      simp at hr
    · rcases hpost : parseMountRows post [] with _ | after
      · rw [hpre, hpost] at hr
        simp at hr
      · rw [hpre, hpost] at hr
        simp only [Option.some_bind, Option.map_some', Option.some.injEq] at hr
        exact ⟨before, after, rfl, rfl, hr.symm⟩
  · intro before after hpre hpost
    unfold ParseMountOutput
    rw [hrows, haround, hpre, hpost]
    rfl
  · rw [Fields_columns lead trail first second third more hline]
    simp
  · rw [Fields_columns lead trail first second third more hline]
    simp

/-- C13 (amended), at a concrete input: a line too short to be parsed, a padded line of
three tokens, a line of three blanks and a line of three tokens; the padded line gives the
mount of `a` at `c`, before the mount of the last line. -/
theorem C13_single_blank_split_witness :
    (ColumnLine.columns "\t" " " "a" "b" "c" []).wellFormed = true ∧
    Split "x y\n\ta b c \n   \nd e f" '\n' =
      ["x y"] ++ ⟨(ColumnLine.columns "\t" " " "a" "b" "c" []).text⟩ :: ["   ", "d e f"] ∧
    ParseMountOutput "x y\n\ta b c \n   \nd e f" =
      some ([{ MountPoint := "c", Volume := "a" }, { MountPoint := "f", Volume := "d" }],
        none) :=
  ⟨by decide, by decide,
    (C13_single_blank_split "x y\n\ta b c \n   \nd e f" ["x y"] ["   ", "d e f"]
      "\t" " " "a" "b" "c" [] (by decide) (by decide)).2.2.1 []
      [{ MountPoint := "f", Volume := "d" }] (by decide) (by decide)⟩

end GlusterExporter
